import Mathlib

/-!
Verification development for `tmpl.Generator` (prototools).

Shallow embedding of `src/tmpl/generator.go`.

Modelling conventions, all read off the Go source:

* Go pointers are `Option`: `none` is the nil pointer.  A nil-pointer
  dereference is a run-time panic; a function that can panic returns `Option`,
  with `none` standing for the panic (no value is returned to the caller).
* A Go `error` is represented by its message (`err.Error()`), a nil error by
  `none`.
* A Go `string` is a Lean `String`; `bytes.Buffer` is the `String` of the bytes
  written so far, `Len()` its UTF-8 byte length.
* The template engine (`html/template`) and the helper functions bound with
  `Funcs` are outside the repository.  A template is modelled by what
  `Execute` does for a given helper context and data value: the text it writes
  to the buffer and the error it returns.
* `findExt`, `stripExt` and `unixPath` belong to the package but their source
  file is not available; `Generate` takes them as a parameter (`Helpers`).
* `Generate` is embedded twice.  `Generator.Generate` works on values: the
  generator holds the template and the response themselves.
  `GeneratorRef.Generate` works on a store: the generator holds addresses, and
  the response object and the template object (with its function map) live in
  the store.  The second is used where it matters which object a pointer
  designates.
-/

namespace tmpl

/-! ## Data model -/

/-- The `descriptor.FileDescriptorProto` message.  The generator reads `Name`
only, an optional string (`*string` in Go); `Package` and `Dependency` stand for
the rest of the descriptor, which a template may render. -/
structure FileDescriptorProto where
  Name : Option String
  Package : Option String
  Dependency : List String
deriving DecidableEq

/-- The nil-safe getter `GetName`: the name, or the empty string when unset. -/
def FileDescriptorProto.GetName (f : FileDescriptorProto) : String :=
  match f.Name with
  | some n => n
  | none => ""

/-- The `plugin.CodeGeneratorRequest` message. -/
structure CodeGeneratorRequest where
  FileToGenerate : List String
  Parameter : Option String
  ProtoFile : List FileDescriptorProto
deriving DecidableEq

/-- The nil-safe getter `GetProtoFile` on a `*CodeGeneratorRequest`: a nil
request has no files. -/
def CodeGeneratorRequest.GetProtoFile : Option CodeGeneratorRequest → List FileDescriptorProto
  | some m => m.ProtoFile
  | none => []

/-- The `plugin.CodeGeneratorResponse_File` message. -/
structure CodeGeneratorResponse_File where
  Name : Option String
  InsertionPoint : Option String
  Content : Option String
deriving DecidableEq

/-- The `plugin.CodeGeneratorResponse` message. -/
structure CodeGeneratorResponse where
  Error : Option String
  File : List CodeGeneratorResponse_File
deriving DecidableEq

/-- The generated `Reset` method: `*m = CodeGeneratorResponse{}`. -/
def CodeGeneratorResponse.Reset (_m : CodeGeneratorResponse) : CodeGeneratorResponse :=
  { Error := none, File := [] }

/-- The helper-function context built once per file (`tmplFuncs` in the
source); `funcMap()` closes over exactly these four fields. -/
structure tmplFuncs where
  f : FileDescriptorProto
  ext : String
  rootDir : String
  protoFile : List FileDescriptorProto
deriving DecidableEq

/-- A compiled template, as far as `Generate` observes it.

`Templates` are the names of the associated templates in the order in which
`Templates()` enumerates them.  `Execute ctx f` is the outcome of
`t.Funcs(ctx.funcMap()).Execute(buf, f)`: the text written to `buf` (possibly a
partial rendering when execution fails) and the returned error. -/
structure Template where
  Templates : List String
  Execute : tmplFuncs → FileDescriptorProto → String × Option String

/-- The package-level helpers used by `Generate` whose source is not part of
`generator.go`. -/
structure Helpers where
  findExt : Template → String
  stripExt : String → String
  unixPath : String → String

/-- The `Generator` struct. -/
structure Generator where
  Request : Option CodeGeneratorRequest
  Template : Option Template
  Extension : String
  RootDir : String
  response : Option CodeGeneratorResponse

/-- Local state of the generation loop: the two buffers `errs` and `buf` and
the response object `g.response` points to. -/
structure LoopState where
  errs : String
  buf : String
  response : CodeGeneratorResponse
deriving DecidableEq

/-- What a call of `Generate` leaves behind: the generator after the call and
the two returned values. -/
structure GenerateResult where
  g : Generator
  response : Option CodeGeneratorResponse
  err : Option String

/-! ## `Generate` -/

/-- One iteration of the `for _, f := range protoFile` loop body, for a non-nil
template. -/
def generateFile (h : Helpers) (t : Template) (rootDir ext : String)
    (protoFile : List FileDescriptorProto) (f : FileDescriptorProto) (s : LoopState) :
    LoopState :=
  let ctx : tmplFuncs := { f := f, ext := ext, rootDir := rootDir, protoFile := protoFile }
  -- buf.Reset(); err := g.Template.Funcs(ctx.funcMap()).Execute(buf, f)
  let buf := ""
  let out := t.Execute ctx f
  let buf := buf ++ out.1
  match out.2 with
  | some err =>
    -- fmt.Fprintf(errs, "%s\n", err); continue
    { errs := s.errs ++ (err ++ "\n"), buf := buf, response := s.response }
  | none =>
    let name := h.stripExt f.GetName ++ ext
    let name := h.unixPath name
    let bufStr := buf
    { errs := s.errs, buf := buf,
      response := { Error := s.response.Error,
                    File := s.response.File ++
                      [{ Name := some name, InsertionPoint := none, Content := some bufStr }] } }

/-- The loop over the remaining files.  Each iteration calls a method on
`g.Template`, which panics when the template is nil. -/
def generateLoop (h : Helpers) (t : Option Template) (rootDir ext : String)
    (protoFile : List FileDescriptorProto) :
    List FileDescriptorProto → LoopState → Option LoopState
  | [], s => some s
  | f :: fs, s =>
    match t with
    | none => none
    | some t => generateLoop h (some t) rootDir ext protoFile fs
        (generateFile h t rootDir ext protoFile f s)

/-- The statements after the loop: on a non-empty error buffer the files are
dropped and the error field is set. -/
def finish (s : LoopState) : CodeGeneratorResponse :=
  if s.errs.utf8ByteSize > 0 then
    { Error := some s.errs, File := [] }
  else
    s.response

/-- The method `(*Generator).Generate`. -/
def Generator.Generate (h : Helpers) (g : Generator) : Option GenerateResult :=
  -- g.response.Reset()
  match g.response with
  | none => none
  | some r =>
    let r := r.Reset
    -- ext := g.Extension; if len(ext) == 0 { ext = findExt(g.Template) }
    -- (findExt inspects the template it is given, so a nil template panics here)
    let extOpt : Option String :=
      if g.Extension.utf8ByteSize = 0 then
        match g.Template with
        | none => none
        | some t => some (h.findExt t)
      else some g.Extension
    match extOpt with
    | none => none
    | some ext =>
      let protoFile := CodeGeneratorRequest.GetProtoFile g.Request
      match generateLoop h g.Template g.RootDir ext protoFile protoFile
          { errs := "", buf := "", response := r } with
      | none => none
      | some s =>
        let r := finish s
        -- return g.response, nil
        some { g := { g with response := some r }, response := some r, err := none }

/-- The constructor `New`. -/
def New : Generator :=
  { Request := some { FileToGenerate := [], Parameter := none, ProtoFile := [] },
    Template := none,
    Extension := "",
    RootDir := "",
    response := some { Error := none, File := [] } }

/-! ## `Generate` on a store

`Generate` reaches two objects through pointer fields of the generator and
writes to both: the response object (`Reset`, `append`, the assignments after
the loop) and the template object (`Funcs` adds the helper functions of the
current file to its function map).  The definitions below repeat `Generate`
with these two objects held in a store and the pointer fields as addresses, so
that which object a pointer designates is part of the model. -/

/-- A `template.Template` object: the parsed template and its function map.
The function map is represented by the helper context whose `funcMap()` was
bound last with `Funcs`; `none` when no helper context has been bound. -/
structure TemplateObject where
  parsed : Template
  funcs : Option tmplFuncs

/-- The store: the template objects and the response objects, by address. -/
structure Store where
  templates : Nat → TemplateObject
  responses : Nat → CodeGeneratorResponse

/-- Assignment to the response object at address `p`. -/
def Store.setResponse (σ : Store) (p : Nat) (r : CodeGeneratorResponse) : Store :=
  { templates := σ.templates,
    responses := fun a => if a = p then r else σ.responses a }

/-- Assignment to the template object at address `p`. -/
def Store.setTemplate (σ : Store) (p : Nat) (o : TemplateObject) : Store :=
  { templates := fun a => if a = p then o else σ.templates a,
    responses := σ.responses }

/-- The `Generator` struct with its pointer fields `Template` and `response` as
addresses in the store (`none`: nil). -/
structure GeneratorRef where
  Request : Option CodeGeneratorRequest
  Template : Option Nat
  Extension : String
  RootDir : String
  response : Option Nat
deriving DecidableEq

/-- Local state of the loop on a store: the buffers `errs` and `buf`, and the
store. -/
structure StoreLoopState where
  errs : String
  buf : String
  store : Store

/-- What a call of `Generate` on a store leaves behind: the generator struct,
the store, and the two returned values, the first of them a pointer. -/
structure StoreResult where
  g : GeneratorRef
  store : Store
  response : Option Nat
  err : Option String

/-- One iteration of the loop body on a store; `tp` is the address in
`g.Template`, `rp` the address in `g.response`. -/
def generateFileIn (h : Helpers) (tp rp : Nat) (rootDir ext : String)
    (protoFile : List FileDescriptorProto) (f : FileDescriptorProto) (s : StoreLoopState) :
    StoreLoopState :=
  let ctx : tmplFuncs := { f := f, ext := ext, rootDir := rootDir, protoFile := protoFile }
  -- buf.Reset()
  let buf := ""
  -- g.Template.Funcs(ctx.funcMap()): the function map of the template object is rebound
  let t := (s.store.templates tp).parsed
  let store := s.store.setTemplate tp { parsed := t, funcs := some ctx }
  -- .Execute(buf, f)
  let out := t.Execute ctx f
  let buf := buf ++ out.1
  match out.2 with
  | some err =>
    -- fmt.Fprintf(errs, "%s\n", err); continue
    { errs := s.errs ++ (err ++ "\n"), buf := buf, store := store }
  | none =>
    let name := h.stripExt f.GetName ++ ext
    let name := h.unixPath name
    let bufStr := buf
    -- g.response.File = append(g.response.File, ...)
    let r := store.responses rp
    { errs := s.errs, buf := buf,
      store := store.setResponse rp
        { Error := r.Error,
          File := r.File ++
            [{ Name := some name, InsertionPoint := none, Content := some bufStr }] } }

/-- The loop over the remaining files on a store; a nil `g.Template` panics at
the first iteration. -/
def generateLoopIn (h : Helpers) (tp : Option Nat) (rp : Nat) (rootDir ext : String)
    (protoFile : List FileDescriptorProto) :
    List FileDescriptorProto → StoreLoopState → Option StoreLoopState
  | [], s => some s
  | f :: fs, s =>
    match tp with
    | none => none
    | some p => generateLoopIn h (some p) rp rootDir ext protoFile fs
        (generateFileIn h p rp rootDir ext protoFile f s)

/-- The method `(*Generator).Generate` on a store. -/
def GeneratorRef.Generate (h : Helpers) (g : GeneratorRef) (σ : Store) : Option StoreResult :=
  -- g.response.Reset()
  match g.response with
  | none => none
  | some rp =>
    let σ := σ.setResponse rp (σ.responses rp).Reset
    -- ext := g.Extension; if len(ext) == 0 { ext = findExt(g.Template) }
    let extOpt : Option String :=
      if g.Extension.utf8ByteSize = 0 then
        match g.Template with
        | none => none
        | some tp => some (h.findExt (σ.templates tp).parsed)
      else some g.Extension
    match extOpt with
    | none => none
    | some ext =>
      let protoFile := CodeGeneratorRequest.GetProtoFile g.Request
      match generateLoopIn h g.Template rp g.RootDir ext protoFile protoFile
          { errs := "", buf := "", store := σ } with
      | none => none
      | some s =>
        -- if errs.Len() > 0 { g.response.File = nil; g.response.Error = &errsStr }
        let σ :=
          if s.errs.utf8ByteSize > 0 then
            s.store.setResponse rp { Error := some s.errs, File := [] }
          else s.store
        -- return g.response, nil
        some { g := g, store := σ, response := g.response, err := none }

/-- The function map of a template object after the loop has run over the
given files, from the function map `c` before: each iteration rebinds it. -/
def boundAfter (rootDir ext : String) (protoFile : List FileDescriptorProto) :
    Option tmplFuncs → List FileDescriptorProto → Option tmplFuncs
  | c, [] => c
  | _, f :: fs =>
    boundAfter rootDir ext protoFile
      (some { f := f, ext := ext, rootDir := rootDir, protoFile := protoFile }) fs

/-! ## Specification vocabulary -/

/-- The extension `Generate` computes before the loop, for a non-nil template. -/
def resolveExt (h : Helpers) (t : Template) (extension : String) : String :=
  if extension.utf8ByteSize = 0 then h.findExt t else extension

/-- The per-file rendering outcomes of a call, in request order: for each file
the text written and the error returned by executing the template with that
file as data and with the helper context `Generate` builds for it. -/
def outcomes (t : Template) (rootDir ext : String) (protoFile : List FileDescriptorProto) :
    List FileDescriptorProto → List (FileDescriptorProto × String × Option String)
  | [] => []
  | f :: fs =>
    (f, t.Execute { f := f, ext := ext, rootDir := rootDir, protoFile := protoFile } f) ::
      outcomes t rootDir ext protoFile fs

/-- The error messages of the failing files, in processing order. -/
def failures : List (FileDescriptorProto × String × Option String) → List String
  | [] => []
  | (_, _, some e) :: os => e :: failures os
  | (_, _, none) :: os => failures os

/-- The output records of the files that rendered, in processing order. -/
def rendered (h : Helpers) (ext : String) :
    List (FileDescriptorProto × String × Option String) → List CodeGeneratorResponse_File
  | [] => []
  | (_, _, some _) :: os => rendered h ext os
  | (f, text, none) :: os =>
    { Name := some (h.unixPath (h.stripExt f.GetName ++ ext)), InsertionPoint := none,
      Content := some text } :: rendered h ext os

/-- The error lines: every message followed by a newline, concatenated. -/
def errorText : List String → String
  | [] => ""
  | e :: es => (e ++ "\n") ++ errorText es

/-- The response a call is expected to produce from the rendering outcomes. -/
def expected (h : Helpers) (ext : String)
    (os : List (FileDescriptorProto × String × Option String)) : CodeGeneratorResponse :=
  match failures os with
  | [] => { Error := none, File := rendered h ext os }
  | e :: es => { Error := some (errorText (e :: es)), File := [] }

/-- Splitting of a character sequence into lines; `cur` holds the characters
of the line being read. -/
def linesAux (cur : List Char) : List Char → List (List Char)
  | [] => if cur = [] then [] else [cur]
  | c :: cs => if c = '\n' then cur :: linesAux [] cs else linesAux (cur ++ [c]) cs

/-- The lines of a text: the pieces that end at each newline character, the
newline itself left out, and a last piece without newline when it is not
empty. -/
def lines (s : String) : List String :=
  (linesAux [] s.data).map String.mk

/-! ## The helpers, as the specification describes them -/

/-- Scan of a name from its end for the final dot of its final path element;
`acc` holds the characters already passed. -/
def extScan (acc : List Char) : List Char → Option (List Char)
  | [] => none
  | c :: cs =>
    if c = '/' then none
    else if c = '.' then some ('.' :: acc)
    else extScan (c :: acc) cs

/-- Modelled from the spec: the extension of a path-like name (the helper file
of the package is not available).  It is the trailing `.ext` segment after the
final path separator, empty when the final element has no dot. -/
def pathExt (name : String) : String :=
  match extScan [] name.data.reverse with
  | some e => String.mk e
  | none => ""

/-- Modelled from the spec: `stripExt` (source not available) removes the
extension of the name; a name without extension is unchanged. -/
def stripExt (name : String) : String :=
  String.mk (name.data.take (name.data.length - (pathExt name).data.length))

/-- Modelled from the spec: `unixPath` (source not available) rewrites
platform-style path separators to forward slashes. -/
def unixPath (name : String) : String :=
  String.mk (name.data.map fun c => if c = '\\' then '/' else c)

/-- Modelled from the spec: `findExt` (source not available) takes the
extension of the first associated template name; with no name there is no
extension and the result is empty. -/
def findExt (t : Template) : String :=
  match t.Templates with
  | [] => ""
  | n :: _ => pathExt n

/-- The helpers as the specification describes them. -/
def specHelpers : Helpers :=
  { findExt := findExt, stripExt := stripExt, unixPath := unixPath }

/-! ## Scenario data -/

/-- A schema file that carries only a name. -/
def protoNamed (name : String) : FileDescriptorProto :=
  { Name := some name, Package := none, Dependency := [] }

/-- A request for the given schema files. -/
def requestOf (files : List FileDescriptorProto) : CodeGeneratorRequest :=
  { FileToGenerate := files.map FileDescriptorProto.GetName, Parameter := none,
    ProtoFile := files }

/-- A template that renders the name of the file it is given. -/
def nameTemplate : Template :=
  { Templates := ["name.txt"], Execute := fun _ f => (f.GetName, none) }

/-- A template that renders the file name, except that on the file called
`bad` it stops after writing `partly` and reports the error `msg`. -/
def failingTemplate (bad msg : String) : Template :=
  { Templates := ["name.txt"],
    Execute := fun _ f =>
      if f.GetName = bad then ("partly", some msg) else (f.GetName, none) }

/-- A template that fails on every file, with the file name as message. -/
def alwaysFailing : Template :=
  { Templates := ["name.txt"], Execute := fun _ f => ("", some f.GetName) }

/-- A response as an earlier call may have left it: files and an error. -/
def staleResponse : CodeGeneratorResponse :=
  { Error := some "old error\n",
    File := [{ Name := some "old.txt", InsertionPoint := none, Content := some "old" }] }

/-- A generator for the two files `a.proto` and `b.proto` with extension
`.txt`, for the given template and prior response. -/
def twoFiles (t : Template) (prior : CodeGeneratorResponse) : Generator :=
  { Request := some (requestOf [protoNamed "a.proto", protoNamed "b.proto"]),
    Template := some t, Extension := ".txt", RootDir := "", response := some prior }

/-- A template that renders the helper context it is bound to and the data
value it is executed with: the name of the current file of the context, the
extension, the root directory, the names of the files of the context, and the
name of the data value. -/
def probeTemplate : Template :=
  { Templates := ["probe.txt"],
    Execute := fun ctx f =>
      (ctx.f.GetName ++ "|" ++ ctx.ext ++ "|" ++ ctx.rootDir ++ "|" ++
        String.join (ctx.protoFile.map fun p => p.GetName ++ ";") ++ "|" ++ f.GetName, none) }

/-- The template `failingTemplate bad msg`, except that it writes nothing
before it reports the error on the file called `bad`. -/
def failingSilently (bad msg : String) : Template :=
  { Templates := ["name.txt"],
    Execute := fun _ f => if f.GetName = bad then ("", some msg) else (f.GetName, none) }

/-- A store with the template that renders the file name at address `0`, the
template that fails on every file at every other address, no helper context
bound yet, and a response left by an earlier use at every address. -/
def scenarioStore : Store :=
  { templates := fun a =>
      if a = 0 then { parsed := nameTemplate, funcs := none }
      else { parsed := alwaysFailing, funcs := none },
    responses := fun _ => staleResponse }

/-- The generator for `a.proto` and `b.proto` with extension `.txt`, whose
template is the object at address `tp` and whose response is the object at
address `7`. -/
def twoFilesAt (tp : Nat) : GeneratorRef :=
  { Request := some (requestOf [protoNamed "a.proto", protoNamed "b.proto"]),
    Template := some tp, Extension := ".txt", RootDir := "", response := some 7 }

/-! ## The loop and the whole call in closed form -/

theorem utf8ByteSize_pos_iff (s : String) : 0 < s.utf8ByteSize ↔ s ≠ "" := by
  cases s with
  | mk cs =>
    cases cs with
    | nil => simp [String.utf8ByteSize]
    | cons c cs =>
      have hc := c.utf8Size_pos
      constructor
      · intro _ hEq
        exact absurd (congrArg String.data hEq) (by simp)
      · intro _
        simp only [String.utf8ByteSize_mk, String.utf8Len_cons]
        omega

theorem utf8ByteSize_eq_zero_iff (s : String) : s.utf8ByteSize = 0 ↔ s = "" := by
  have h := utf8ByteSize_pos_iff s
  constructor
  · intro h0
    by_contra hne
    have := h.mpr hne
    omega
  · intro hs
    subst hs
    rfl

theorem append_newline_ne_empty (e s : String) : (e ++ "\n") ++ s ≠ "" := by
  intro hEq
  have hlen := congrArg String.length hEq
  have hnl : "\n".length = 1 := rfl
  simp only [String.length_append, hnl] at hlen
  have h0 : "".length = 0 := rfl
  omega

theorem errorText_eq_empty_iff (es : List String) : errorText es = "" ↔ es = [] := by
  cases es with
  | nil => simp [errorText]
  | cons e es => simp [errorText, append_newline_ne_empty]

theorem errorText_append (xs ys : List String) :
    errorText (xs ++ ys) = errorText xs ++ errorText ys := by
  induction xs with
  | nil => simp [errorText]
  | cons x xs ih => simp [errorText, ih, String.append_assoc]

theorem errorText_eq_join (es : List String) :
    errorText es = String.join (es.map fun e => e ++ "\n") := by
  apply String.ext
  induction es with
  | nil => simp [errorText]
  | cons e es ih => simp [errorText, ih] at *

theorem generateLoop_some (h : Helpers) (t : Template) (rootDir ext : String)
    (protoFile fs : List FileDescriptorProto) (s : LoopState) :
    ∃ b, generateLoop h (some t) rootDir ext protoFile fs s =
      some { errs := s.errs ++ errorText (failures (outcomes t rootDir ext protoFile fs)),
             buf := b,
             response :=
               { Error := s.response.Error,
                 File := s.response.File ++
                   rendered h ext (outcomes t rootDir ext protoFile fs) } } := by
  induction fs generalizing s with
  | nil =>
    exact ⟨s.buf, by simp [generateLoop, outcomes, failures, rendered, errorText]⟩
  | cons f fs ih =>
    obtain ⟨b, hb⟩ := ih (generateFile h t rootDir ext protoFile f s)
    refine ⟨b, ?_⟩
    rw [generateLoop, hb]
    rcases hout : t.Execute { f := f, ext := ext, rootDir := rootDir, protoFile := protoFile } f
      with ⟨text, _ | e⟩
    · simp [generateFile, outcomes, failures, rendered, hout]
    · simp [generateFile, outcomes, failures, rendered, errorText, hout, String.append_assoc]

theorem finish_eq_expected (h : Helpers) (ext b : String)
    (os : List (FileDescriptorProto × String × Option String)) :
    finish { errs := "" ++ errorText (failures os), buf := b,
             response := { Error := none, File := [] ++ rendered h ext os } } =
      expected h ext os := by
  unfold finish expected
  cases hf : failures os with
  | nil =>
    have h0 : "".utf8ByteSize = 0 := rfl
    simp [errorText, h0]
  | cons e es =>
    have hpos : 0 < (errorText (e :: es)).utf8ByteSize :=
      (utf8ByteSize_pos_iff _).mpr (by simp [errorText, append_newline_ne_empty])
    simp [hpos]

/-- Closed form of a call on a generator whose response object is allocated and
whose template is set: the call returns, with a nil error, the response
determined by the rendering outcomes; the prior response plays no part. -/
theorem Generate_eq (h : Helpers) (req : Option CodeGeneratorRequest) (t : Template)
    (extension root : String) (prior : CodeGeneratorResponse) :
    Generator.Generate h
        { Request := req, Template := some t, Extension := extension, RootDir := root,
          response := some prior } =
      some
        { g := { Request := req, Template := some t, Extension := extension, RootDir := root,
                 response := some (expected h (resolveExt h t extension)
                   (outcomes t root (resolveExt h t extension)
                     (CodeGeneratorRequest.GetProtoFile req)
                     (CodeGeneratorRequest.GetProtoFile req))) },
          response := some (expected h (resolveExt h t extension)
            (outcomes t root (resolveExt h t extension)
              (CodeGeneratorRequest.GetProtoFile req)
              (CodeGeneratorRequest.GetProtoFile req))),
          err := none } := by
  obtain ⟨b, hb⟩ := generateLoop_some h t root (resolveExt h t extension)
    (CodeGeneratorRequest.GetProtoFile req) (CodeGeneratorRequest.GetProtoFile req)
    { errs := "", buf := "", response := { Error := none, File := [] } }
  have hfin := finish_eq_expected h (resolveExt h t extension) b
    (outcomes t root (resolveExt h t extension) (CodeGeneratorRequest.GetProtoFile req)
      (CodeGeneratorRequest.GetProtoFile req))
  unfold Generator.Generate
  by_cases hx : extension.utf8ByteSize = 0
  · have hr : resolveExt h t extension = h.findExt t := by simp [resolveExt, hx]
    rw [hr] at hb hfin
    simp only [hx, if_true, CodeGeneratorResponse.Reset, hb, hfin, hr]
  · have hr : resolveExt h t extension = extension := by simp [resolveExt, hx]
    rw [hr] at hb hfin
    simp only [hx, if_false, CodeGeneratorResponse.Reset, hb, hfin, hr]

theorem failures_outcomes (t : Template) (rootDir ext : String)
    (protoFile fs : List FileDescriptorProto) :
    failures (outcomes t rootDir ext protoFile fs) =
      fs.filterMap fun f =>
        (t.Execute { f := f, ext := ext, rootDir := rootDir, protoFile := protoFile } f).2 := by
  induction fs with
  | nil => rfl
  | cons f fs ih =>
    rcases hout : t.Execute { f := f, ext := ext, rootDir := rootDir, protoFile := protoFile } f
      with ⟨text, _ | e⟩
    · simp [outcomes, failures, hout, ih]
    · simp [outcomes, failures, hout, ih]

theorem rendered_outcomes (h : Helpers) (t : Template) (rootDir ext : String)
    (protoFile fs : List FileDescriptorProto)
    (hok : ∀ f ∈ fs,
      (t.Execute { f := f, ext := ext, rootDir := rootDir, protoFile := protoFile } f).2 = none) :
    rendered h ext (outcomes t rootDir ext protoFile fs) =
      fs.map fun f =>
        { Name := some (h.unixPath (h.stripExt f.GetName ++ ext)), InsertionPoint := none,
          Content := some
            (t.Execute { f := f, ext := ext, rootDir := rootDir, protoFile := protoFile } f).1 } := by
  induction fs with
  | nil => rfl
  | cons f fs ih =>
    have hf := hok f (List.mem_cons_self f fs)
    have ih := ih fun f' hf' => hok f' (List.mem_cons_of_mem f hf')
    rcases hout : t.Execute { f := f, ext := ext, rootDir := rootDir, protoFile := protoFile } f
      with ⟨text, _ | e⟩
    · simp [outcomes, rendered, hout, ih]
    · rw [hout] at hf
      cases hf

theorem failures_eq_nil_of_ok (t : Template) (rootDir ext : String)
    (protoFile : List FileDescriptorProto)
    (hok : ∀ f ∈ protoFile,
      (t.Execute { f := f, ext := ext, rootDir := rootDir, protoFile := protoFile } f).2 = none) :
    failures (outcomes t rootDir ext protoFile protoFile) = [] := by
  rw [failures_outcomes]
  apply List.filterMap_eq_nil_iff.mpr
  intro f hf
  exact hok f hf

theorem failures_ne_nil_of_fail (t : Template) (rootDir ext : String)
    (protoFile : List FileDescriptorProto) (f : FileDescriptorProto) (hf : f ∈ protoFile)
    (hfail :
      (t.Execute { f := f, ext := ext, rootDir := rootDir, protoFile := protoFile } f).2 ≠ none) :
    failures (outcomes t rootDir ext protoFile protoFile) ≠ [] := by
  rw [failures_outcomes]
  intro hnil
  exact hfail (List.filterMap_eq_nil_iff.mp hnil f hf)

theorem expected_of_ok (h : Helpers) (ext : String)
    (os : List (FileDescriptorProto × String × Option String)) (hok : failures os = []) :
    expected h ext os = { Error := none, File := rendered h ext os } := by
  simp [expected, hok]

theorem expected_of_fail (h : Helpers) (ext : String)
    (os : List (FileDescriptorProto × String × Option String)) (hfail : failures os ≠ []) :
    expected h ext os = { Error := some (errorText (failures os)), File := [] } := by
  unfold expected
  cases hf : failures os with
  | nil => exact absurd hf hfail
  | cons e es => rfl

theorem expected_exclusive (h : Helpers) (ext : String)
    (os : List (FileDescriptorProto × String × Option String)) :
    (expected h ext os).File = [] ∨ (expected h ext os).Error = none := by
  by_cases hf : failures os = []
  · right
    rw [expected_of_ok h ext os hf]
  · left
    rw [expected_of_fail h ext os hf]

/-- Every call that returns hands back a nil error and the response object the
generator points to afterwards, never holding files together with an error. -/
theorem Generate_some (h : Helpers) (g : Generator) (res : GenerateResult)
    (hres : g.Generate h = some res) :
    res.err = none ∧ ∃ r, res.response = some r ∧ res.g.response = some r ∧
      (r.File = [] ∨ r.Error = none) := by
  obtain ⟨req, tmplOpt, extension, root, respOpt⟩ := g
  cases respOpt with
  | none => simp [Generator.Generate] at hres
  | some prior =>
    cases tmplOpt with
    | some t =>
      rw [Generate_eq] at hres
      cases hres
      exact ⟨rfl, _, rfl, rfl, expected_exclusive _ _ _⟩
    | none =>
      unfold Generator.Generate at hres
      by_cases hx : extension.utf8ByteSize = 0
      · simp [hx] at hres
      · cases hpf : CodeGeneratorRequest.GetProtoFile req with
        | nil =>
          have h0 : "".utf8ByteSize = 0 := rfl
          simp [hx, hpf, generateLoop, finish, h0, CodeGeneratorResponse.Reset] at hres
          subst hres
          exact ⟨rfl, _, rfl, rfl, Or.inl rfl⟩
        | cons f fs => simp [hx, hpf, generateLoop] at hres

/-- A call on a generator whose response object is allocated and whose
template is set returns. -/
theorem Generate_returns (h : Helpers) (g : Generator) (hresp : g.response ≠ none)
    (htmpl : g.Template ≠ none) : ∃ res, g.Generate h = some res := by
  obtain ⟨req, tmplOpt, extension, root, respOpt⟩ := g
  cases respOpt with
  | none => exact absurd rfl hresp
  | some prior =>
    cases tmplOpt with
    | none => exact absurd rfl htmpl
    | some t => exact ⟨_, Generate_eq h req t extension root prior⟩

theorem linesAux_line (e : List Char) (hnl : '\n' ∉ e) (cur rest : List Char) :
    linesAux cur (e ++ '\n' :: rest) = (cur ++ e) :: linesAux [] rest := by
  induction e generalizing cur with
  | nil => simp [linesAux]
  | cons c cs ih =>
    have hc : c ≠ '\n' := fun hEq => hnl (by simp [hEq])
    have hcs : '\n' ∉ cs := fun hmem => hnl (List.mem_cons_of_mem c hmem)
    simp [linesAux, hc, ih hcs]

theorem errorText_data_cons (e : String) (es : List String) :
    (errorText (e :: es)).data = e.data ++ '\n' :: (errorText es).data := by
  have hnl : "\n".data = ['\n'] := rfl
  simp [errorText, String.data_append, hnl]

theorem lines_errorText (es : List String) (hnl : ∀ e ∈ es, '\n' ∉ e.data) :
    lines (errorText es) = es := by
  induction es with
  | nil => rfl
  | cons e es ih =>
    have he := hnl e (List.mem_cons_self e es)
    have ih := ih fun e' he' => hnl e' (List.mem_cons_of_mem e he')
    unfold lines at ih ⊢
    rw [errorText_data_cons, linesAux_line e.data he [] _]
    simp [ih]

theorem length_filterMap_eq_length_filter {α β : Type} (p : α → Option β) (l : List α) :
    (l.filterMap p).length = (l.filter fun a => (p a).isSome).length := by
  induction l with
  | nil => rfl
  | cons a l ih =>
    cases hp : p a with
    | none => simp [List.filterMap_cons, List.filter_cons, hp, ih]
    | some b => simp [List.filterMap_cons, List.filter_cons, hp, ih]

theorem errorText_of_mem (e : String) (es : List String) (he : e ∈ es) :
    ∃ before after, errorText es = before ++ (e ++ "\n") ++ after := by
  obtain ⟨xs, ys, hsplit⟩ := List.append_of_mem he
  refine ⟨errorText xs, errorText ys, ?_⟩
  rw [hsplit, errorText_append]
  simp [errorText, String.append_assoc]

theorem outcomes_eq_map (t : Template) (rootDir ext : String)
    (protoFile fs : List FileDescriptorProto) :
    outcomes t rootDir ext protoFile fs =
      fs.map fun f =>
        (f, t.Execute { f := f, ext := ext, rootDir := rootDir, protoFile := protoFile } f) := by
  induction fs with
  | nil => rfl
  | cons f fs ih => simp [outcomes, ih]

theorem expected_ok_eq (h : Helpers) (t : Template) (rootDir ext : String)
    (protoFile : List FileDescriptorProto)
    (hok : ∀ f ∈ protoFile,
      (t.Execute { f := f, ext := ext, rootDir := rootDir, protoFile := protoFile } f).2 = none) :
    expected h ext (outcomes t rootDir ext protoFile protoFile) =
      { Error := none,
        File := protoFile.map fun f =>
          { Name := some (h.unixPath (h.stripExt f.GetName ++ ext)), InsertionPoint := none,
            Content := some
              (t.Execute { f := f, ext := ext, rootDir := rootDir,
                           protoFile := protoFile } f).1 } } := by
  rw [expected_of_ok _ _ _ (failures_eq_nil_of_ok t rootDir _ _ hok),
    rendered_outcomes h t rootDir _ _ _ hok]

theorem expected_fail_eq (h : Helpers) (t : Template) (rootDir ext : String)
    (protoFile : List FileDescriptorProto) (f : FileDescriptorProto) (hf : f ∈ protoFile)
    (hfail :
      (t.Execute { f := f, ext := ext, rootDir := rootDir, protoFile := protoFile } f).2 ≠ none) :
    expected h ext (outcomes t rootDir ext protoFile protoFile) =
      { Error := some (String.join
          ((protoFile.filterMap fun f' =>
              (t.Execute { f := f', ext := ext, rootDir := rootDir,
                           protoFile := protoFile } f').2).map fun e => e ++ "\n")),
        File := [] } := by
  rw [expected_of_fail _ _ _ (failures_ne_nil_of_fail t rootDir _ _ f hf hfail),
    errorText_eq_join, failures_outcomes]

theorem rendered_helpers_congr (h h' : Helpers) (hs : h'.stripExt = h.stripExt)
    (hu : h'.unixPath = h.unixPath) (ext : String)
    (os : List (FileDescriptorProto × String × Option String)) :
    rendered h' ext os = rendered h ext os := by
  induction os with
  | nil => rfl
  | cons o os ih =>
    obtain ⟨f, text, _ | e⟩ := o
    · simp [rendered, ih, hs, hu]
    · simp [rendered, ih]

theorem expected_helpers_congr (h h' : Helpers) (hs : h'.stripExt = h.stripExt)
    (hu : h'.unixPath = h.unixPath) (ext : String)
    (os : List (FileDescriptorProto × String × Option String)) :
    expected h' ext os = expected h ext os := by
  unfold expected
  rw [rendered_helpers_congr h h' hs hu]

theorem outcomes_congr (t t' : Template) (rootDir ext : String)
    (protoFile fs : List FileDescriptorProto)
    (hsame : ∀ f ∈ fs,
      t'.Execute { f := f, ext := ext, rootDir := rootDir, protoFile := protoFile } f =
        t.Execute { f := f, ext := ext, rootDir := rootDir, protoFile := protoFile } f) :
    outcomes t' rootDir ext protoFile fs = outcomes t rootDir ext protoFile fs := by
  induction fs with
  | nil => rfl
  | cons f fs ih =>
    simp [outcomes, hsame f (List.mem_cons_self f fs),
      ih fun f' hf' => hsame f' (List.mem_cons_of_mem f hf')]

theorem resolveExt_of_ne_empty (h : Helpers) (t : Template) (extension : String)
    (hne : extension ≠ "") : resolveExt h t extension = extension := by
  have hsize : extension.utf8ByteSize ≠ 0 := fun h0 =>
    hne ((utf8ByteSize_eq_zero_iff extension).mp h0)
  simp [resolveExt, hsize]

theorem resolveExt_of_empty (h : Helpers) (t : Template) : resolveExt h t "" = h.findExt t := by
  have hsize : "".utf8ByteSize = 0 := rfl
  simp [resolveExt, hsize]

/-- A call that returns leaves every field of the generator but `response` as
it was. -/
theorem Generate_frame (h : Helpers) (g : Generator) (res : GenerateResult)
    (hres : g.Generate h = some res) :
    res.g.Request = g.Request ∧ res.g.Template = g.Template ∧
      res.g.Extension = g.Extension ∧ res.g.RootDir = g.RootDir := by
  obtain ⟨req, tmplOpt, extension, root, respOpt⟩ := g
  cases respOpt with
  | none => simp [Generator.Generate] at hres
  | some prior =>
    cases tmplOpt with
    | some t =>
      rw [Generate_eq] at hres
      cases hres
      exact ⟨rfl, rfl, rfl, rfl⟩
    | none =>
      unfold Generator.Generate at hres
      by_cases hx : extension.utf8ByteSize = 0
      · simp [hx] at hres
      · cases hpf : CodeGeneratorRequest.GetProtoFile req with
        | nil =>
          simp [hx, hpf, generateLoop] at hres
          subst hres
          exact ⟨rfl, rfl, rfl, rfl⟩
        | cons f fs => simp [hx, hpf, generateLoop] at hres

theorem unixPath_no_backslash (name : String) : '\\' ∉ (unixPath name).data := by
  intro hmem
  simp only [unixPath, List.mem_map] at hmem
  obtain ⟨c, _, hc⟩ := hmem
  by_cases hb : c = '\\'
  · rw [if_pos hb] at hc
    exact absurd hc (by decide)
  · rw [if_neg hb] at hc
    exact hb hc

theorem rendered_eq_filterMap (h : Helpers) (t : Template) (rootDir ext : String)
    (protoFile fs : List FileDescriptorProto) :
    rendered h ext (outcomes t rootDir ext protoFile fs) =
      fs.filterMap fun f =>
        match (t.Execute { f := f, ext := ext, rootDir := rootDir,
                           protoFile := protoFile } f).2 with
        | some _ => none
        | none => some
            { Name := some (h.unixPath (h.stripExt f.GetName ++ ext)), InsertionPoint := none,
              Content := some
                (t.Execute { f := f, ext := ext, rootDir := rootDir,
                             protoFile := protoFile } f).1 } := by
  induction fs with
  | nil => rfl
  | cons f fs ih =>
    rcases hout : t.Execute { f := f, ext := ext, rootDir := rootDir, protoFile := protoFile } f
      with ⟨text, _ | e⟩
    · simp [outcomes, rendered, hout, ih]
    · simp [outcomes, rendered, hout, ih]

theorem expected_congr_of_same_results (h : Helpers) (t t' : Template) (rootDir ext : String)
    (protoFile fs : List FileDescriptorProto)
    (hsame : ∀ f ∈ fs,
      (t'.Execute { f := f, ext := ext, rootDir := rootDir, protoFile := protoFile } f).2 =
        (t.Execute { f := f, ext := ext, rootDir := rootDir, protoFile := protoFile } f).2 ∧
      ((t.Execute { f := f, ext := ext, rootDir := rootDir, protoFile := protoFile } f).2 = none →
        (t'.Execute { f := f, ext := ext, rootDir := rootDir, protoFile := protoFile } f).1 =
          (t.Execute { f := f, ext := ext, rootDir := rootDir, protoFile := protoFile } f).1)) :
    failures (outcomes t' rootDir ext protoFile fs) =
        failures (outcomes t rootDir ext protoFile fs) ∧
      rendered h ext (outcomes t' rootDir ext protoFile fs) =
        rendered h ext (outcomes t rootDir ext protoFile fs) := by
  induction fs with
  | nil => exact ⟨rfl, rfl⟩
  | cons f fs ih =>
    obtain ⟨hf, hr⟩ := ih fun f' hf' => hsame f' (List.mem_cons_of_mem f hf')
    obtain ⟨herr, htext⟩ := hsame f (List.mem_cons_self f fs)
    rcases hout : t.Execute { f := f, ext := ext, rootDir := rootDir, protoFile := protoFile } f
      with ⟨text, _ | e⟩
    · rcases hout' :
          t'.Execute { f := f, ext := ext, rootDir := rootDir, protoFile := protoFile } f
        with ⟨text', _ | e'⟩
      · rw [hout, hout'] at htext
        have htext := htext rfl
        simp only at htext
        subst htext
        simp [outcomes, failures, rendered, hout, hout', hf, hr]
      · rw [hout, hout'] at herr
        cases herr
    · rcases hout' :
          t'.Execute { f := f, ext := ext, rootDir := rootDir, protoFile := protoFile } f
        with ⟨text', _ | e'⟩
      · rw [hout, hout'] at herr
        cases herr
      · rw [hout, hout'] at herr
        cases herr
        simp [outcomes, failures, rendered, hout, hout', hf, hr]

/-! ## The call on a store in closed form -/

theorem generateFileIn_ok (h : Helpers) (tp rp : Nat) (rootDir ext : String)
    (protoFile : List FileDescriptorProto) (f : FileDescriptorProto) (s : StoreLoopState)
    (text : String)
    (hout : (s.store.templates tp).parsed.Execute
      { f := f, ext := ext, rootDir := rootDir, protoFile := protoFile } f = (text, none)) :
    (generateFileIn h tp rp rootDir ext protoFile f s).errs = s.errs ∧
    (generateFileIn h tp rp rootDir ext protoFile f s).store.responses rp =
      { Error := (s.store.responses rp).Error,
        File := (s.store.responses rp).File ++
          [{ Name := some (h.unixPath (h.stripExt f.GetName ++ ext)), InsertionPoint := none,
             Content := some text }] } ∧
    (∀ a, a ≠ rp →
      (generateFileIn h tp rp rootDir ext protoFile f s).store.responses a =
        s.store.responses a) ∧
    (∀ a, a ≠ tp →
      (generateFileIn h tp rp rootDir ext protoFile f s).store.templates a =
        s.store.templates a) ∧
    (generateFileIn h tp rp rootDir ext protoFile f s).store.templates tp =
      { parsed := (s.store.templates tp).parsed,
        funcs := some { f := f, ext := ext, rootDir := rootDir, protoFile := protoFile } } := by
  refine ⟨?_, ?_, ?_, ?_, ?_⟩
  · simp [generateFileIn, hout]
  · simp [generateFileIn, hout, Store.setResponse, Store.setTemplate]
  · intro a ha
    simp [generateFileIn, hout, Store.setResponse, Store.setTemplate, ha]
  · intro a ha
    simp [generateFileIn, hout, Store.setResponse, Store.setTemplate, ha]
  · simp [generateFileIn, hout, Store.setResponse, Store.setTemplate]

theorem generateFileIn_fail (h : Helpers) (tp rp : Nat) (rootDir ext : String)
    (protoFile : List FileDescriptorProto) (f : FileDescriptorProto) (s : StoreLoopState)
    (text e : String)
    (hout : (s.store.templates tp).parsed.Execute
      { f := f, ext := ext, rootDir := rootDir, protoFile := protoFile } f = (text, some e)) :
    (generateFileIn h tp rp rootDir ext protoFile f s).errs = s.errs ++ (e ++ "\n") ∧
    (∀ a, (generateFileIn h tp rp rootDir ext protoFile f s).store.responses a =
        s.store.responses a) ∧
    (∀ a, a ≠ tp →
      (generateFileIn h tp rp rootDir ext protoFile f s).store.templates a =
        s.store.templates a) ∧
    (generateFileIn h tp rp rootDir ext protoFile f s).store.templates tp =
      { parsed := (s.store.templates tp).parsed,
        funcs := some { f := f, ext := ext, rootDir := rootDir, protoFile := protoFile } } := by
  refine ⟨?_, ?_, ?_, ?_⟩
  · simp [generateFileIn, hout]
  · intro a
    simp [generateFileIn, hout, Store.setTemplate]
  · intro a ha
    simp [generateFileIn, hout, Store.setTemplate, ha]
  · simp [generateFileIn, hout, Store.setTemplate]

theorem generateLoopIn_some (h : Helpers) (tp rp : Nat) (rootDir ext : String)
    (protoFile fs : List FileDescriptorProto) (s : StoreLoopState) :
    ∃ s', generateLoopIn h (some tp) rp rootDir ext protoFile fs s = some s' ∧
      s'.errs = s.errs ++
        errorText (failures (outcomes (s.store.templates tp).parsed rootDir ext protoFile fs)) ∧
      s'.store.responses rp =
        { Error := (s.store.responses rp).Error,
          File := (s.store.responses rp).File ++
            rendered h ext (outcomes (s.store.templates tp).parsed rootDir ext protoFile fs) } ∧
      (∀ a, a ≠ rp → s'.store.responses a = s.store.responses a) ∧
      (∀ a, a ≠ tp → s'.store.templates a = s.store.templates a) ∧
      (s'.store.templates tp).parsed = (s.store.templates tp).parsed ∧
      (s'.store.templates tp).funcs =
        boundAfter rootDir ext protoFile (s.store.templates tp).funcs fs := by
  induction fs generalizing s with
  | nil =>
    exact ⟨s, rfl, by simp [outcomes, failures, errorText],
      by simp [outcomes, rendered], fun _ _ => rfl, fun _ _ => rfl, rfl, rfl⟩
  | cons f fs ih =>
    obtain ⟨s', hs', herrs, hresp, hframeR, hframeT, hparsed, hfuncs⟩ :=
      ih (generateFileIn h tp rp rootDir ext protoFile f s)
    refine ⟨s', by rw [generateLoopIn, hs'], ?_⟩
    rcases hout : (s.store.templates tp).parsed.Execute
        { f := f, ext := ext, rootDir := rootDir, protoFile := protoFile } f
      with ⟨text, _ | e⟩
    · obtain ⟨h1, h2, h3, h4, h5⟩ :=
        generateFileIn_ok h tp rp rootDir ext protoFile f s text hout
      rw [h5] at herrs hresp hparsed hfuncs
      rw [h1] at herrs
      rw [h2] at hresp
      refine ⟨?_, ?_, ?_, ?_, hparsed, ?_⟩
      · rw [herrs]
        simp [outcomes, failures, hout]
      · rw [hresp]
        simp [outcomes, rendered, hout]
      · intro a ha
        rw [hframeR a ha, h3 a ha]
      · intro a ha
        rw [hframeT a ha, h4 a ha]
      · rw [hfuncs]
        rfl
    · obtain ⟨h1, h2, h4, h5⟩ :=
        generateFileIn_fail h tp rp rootDir ext protoFile f s text e hout
      rw [h5] at herrs hresp hparsed hfuncs
      rw [h1] at herrs
      rw [h2] at hresp
      refine ⟨?_, ?_, ?_, ?_, hparsed, ?_⟩
      · rw [herrs]
        simp [outcomes, failures, errorText, hout, String.append_assoc]
      · rw [hresp]
        simp [outcomes, rendered, hout]
      · intro a ha
        rw [hframeR a ha, h2 a]
      · intro a ha
        rw [hframeT a ha, h4 a ha]
      · rw [hfuncs]
        rfl

theorem boundAfter_eq_getLast (rootDir ext : String) (protoFile : List FileDescriptorProto)
    (c : Option tmplFuncs) (fs : List FileDescriptorProto) :
    boundAfter rootDir ext protoFile c fs =
      match fs.getLast? with
      | none => c
      | some f => some { f := f, ext := ext, rootDir := rootDir, protoFile := protoFile } := by
  induction fs generalizing c with
  | nil => rfl
  | cons f fs ih =>
    rw [boundAfter, ih]
    cases fs with
    | nil => rfl
    | cons f' fs' =>
      rw [List.getLast?_cons_cons]
      cases hl : (f' :: fs').getLast? with
      | none => simp at hl
      | some l => rfl

/-- Closed form of a call on a store, for a generator whose response and
template pointers are not nil: the call returns the pointer `g.response` and a
nil error; the object at that address holds the response determined by the
rendering outcomes; the template object keeps its parsed template and has its
function map rebound; no other object changes. -/
theorem GenerateIn_eq (h : Helpers) (req : Option CodeGeneratorRequest) (tp rp : Nat)
    (extension root : String) (σ : Store) :
    ∃ res, GeneratorRef.Generate h
        { Request := req, Template := some tp, Extension := extension, RootDir := root,
          response := some rp } σ = some res ∧
      res.g = { Request := req, Template := some tp, Extension := extension, RootDir := root,
                response := some rp } ∧
      res.response = some rp ∧ res.err = none ∧
      res.store.responses rp =
        expected h (resolveExt h (σ.templates tp).parsed extension)
          (outcomes (σ.templates tp).parsed root
            (resolveExt h (σ.templates tp).parsed extension)
            (CodeGeneratorRequest.GetProtoFile req) (CodeGeneratorRequest.GetProtoFile req)) ∧
      (∀ a, a ≠ rp → res.store.responses a = σ.responses a) ∧
      (∀ a, a ≠ tp → res.store.templates a = σ.templates a) ∧
      (res.store.templates tp).parsed = (σ.templates tp).parsed ∧
      (res.store.templates tp).funcs =
        boundAfter root (resolveExt h (σ.templates tp).parsed extension)
          (CodeGeneratorRequest.GetProtoFile req) (σ.templates tp).funcs
          (CodeGeneratorRequest.GetProtoFile req) := by
  obtain ⟨s', hs', herrs, hresp, hframeR, hframeT, hparsed, hfuncs⟩ :=
    generateLoopIn_some h tp rp root (resolveExt h (σ.templates tp).parsed extension)
      (CodeGeneratorRequest.GetProtoFile req) (CodeGeneratorRequest.GetProtoFile req)
      { errs := "", buf := "", store := σ.setResponse rp (σ.responses rp).Reset }
  have hext : (if extension.utf8ByteSize = 0 then
        some (h.findExt ((σ.setResponse rp (σ.responses rp).Reset).templates tp).parsed)
      else some extension) = some (resolveExt h (σ.templates tp).parsed extension) := by
    by_cases hx : extension.utf8ByteSize = 0
    · simp [hx, resolveExt, Store.setResponse]
    · simp [hx, resolveExt]
  simp only [Store.setResponse, if_true, CodeGeneratorResponse.Reset, String.empty_append,
    List.nil_append] at herrs hresp hframeR hframeT hparsed hfuncs
  unfold GeneratorRef.Generate
  simp only [hext, hs']
  refine ⟨_, rfl, rfl, rfl, rfl, ?_⟩
  simp only
  by_cases hf : failures (outcomes (σ.templates tp).parsed root
      (resolveExt h (σ.templates tp).parsed extension)
      (CodeGeneratorRequest.GetProtoFile req) (CodeGeneratorRequest.GetProtoFile req)) = []
  · have hzero : ¬ s'.errs.utf8ByteSize > 0 := by
      rw [herrs, hf]
      decide
    rw [if_neg hzero]
    refine ⟨?_, ?_, hframeT, hparsed, hfuncs⟩
    · rw [hresp, expected_of_ok _ _ _ hf]
    · intro a ha
      rw [hframeR a ha]
      simp [ha]
  · have hpos : s'.errs.utf8ByteSize > 0 := by
      rw [herrs]
      apply (utf8ByteSize_pos_iff _).mpr
      intro hEq
      exact hf ((errorText_eq_empty_iff _).mp hEq)
    rw [if_pos hpos]
    refine ⟨?_, ?_, hframeT, hparsed, hfuncs⟩
    · simp [Store.setResponse, herrs, expected_of_fail _ _ _ hf]
    · intro a ha
      simp only [Store.setResponse, if_neg ha]
      rw [hframeR a ha]
      simp [ha]

/-- Every call on a store that returns hands back the generator struct as it
was, the pointer `g.response`, and a nil error. -/
theorem GenerateIn_some (h : Helpers) (g : GeneratorRef) (σ : Store) (res : StoreResult)
    (hres : g.Generate h σ = some res) :
    res.g = g ∧ res.response = g.response ∧ res.err = none ∧ g.response ≠ none := by
  obtain ⟨req, tmplPtr, extension, root, respPtr⟩ := g
  cases respPtr with
  | none => simp [GeneratorRef.Generate] at hres
  | some rp =>
    cases tmplPtr with
    | some tp =>
      obtain ⟨res', hres', hg, hr, he, _⟩ := GenerateIn_eq h req tp rp extension root σ
      rw [hres'] at hres
      cases hres
      exact ⟨hg, hr, he, by simp⟩
    | none =>
      unfold GeneratorRef.Generate at hres
      by_cases hx : extension.utf8ByteSize = 0
      · simp [hx] at hres
      · cases hpf : CodeGeneratorRequest.GetProtoFile req with
        | nil =>
          simp [hx, hpf, generateLoopIn] at hres
          subst hres
          exact ⟨rfl, rfl, rfl, by simp⟩
        | cons f fs => simp [hx, hpf, generateLoopIn] at hres

/-- A call on a store with a nil template pointer, when it returns, leaves
every template object as it was. -/
theorem GenerateIn_nil_template (h : Helpers) (g : GeneratorRef) (σ : Store)
    (res : StoreResult) (htmpl : g.Template = none) (hres : g.Generate h σ = some res) :
    (∀ a, res.store.templates a = σ.templates a) ∧
      ∀ rp, g.response = some rp → ∀ a, a ≠ rp → res.store.responses a = σ.responses a := by
  obtain ⟨req, tmplPtr, extension, root, respPtr⟩ := g
  simp only at htmpl
  subst htmpl
  cases respPtr with
  | none => simp [GeneratorRef.Generate] at hres
  | some rp =>
    unfold GeneratorRef.Generate at hres
    by_cases hx : extension.utf8ByteSize = 0
    · simp [hx] at hres
    · cases hpf : CodeGeneratorRequest.GetProtoFile req with
      | nil =>
        have h0 : "".utf8ByteSize = 0 := rfl
        simp [hx, hpf, generateLoopIn, h0] at hres
        subst hres
        refine ⟨fun a => rfl, ?_⟩
        intro rp' hrp a ha
        simp only [Option.some.injEq] at hrp
        subst hrp
        simp [Store.setResponse, ha]
      | cons f fs => simp [hx, hpf, generateLoopIn] at hres

/-- The two calls of the store scenario: the generator of the two files, first
with the template at address `0`, then, from the store the first call left,
with the template at address `1`.  Both calls return the pointer `7`. -/
theorem scenario_two_calls :
    ∃ res1 res2,
      (twoFilesAt 0).Generate specHelpers scenarioStore = some res1 ∧
      (twoFilesAt 1).Generate specHelpers res1.store = some res2 ∧
      res1.response = some 7 ∧ res2.response = some 7 ∧
      res1.store.responses 7 =
        { Error := none,
          File := [{ Name := some "a.txt", InsertionPoint := none, Content := some "a.proto" },
                   { Name := some "b.txt", InsertionPoint := none,
                     Content := some "b.proto" }] } ∧
      res2.store.responses 7 = { Error := some "a.proto\nb.proto\n", File := [] } := by
  obtain ⟨res1, h1, _, hp1, _, hr1, _, hT1, _, _⟩ := GenerateIn_eq specHelpers
    (some (requestOf [protoNamed "a.proto", protoNamed "b.proto"])) 0 7 ".txt" "" scenarioStore
  obtain ⟨res2, h2, _, hp2, _, hr2, _, _, _, _⟩ := GenerateIn_eq specHelpers
    (some (requestOf [protoNamed "a.proto", protoNamed "b.proto"])) 1 7 ".txt" "" res1.store
  have hkeep : res1.store.templates 1 = scenarioStore.templates 1 := hT1 1 (by decide)
  rw [hkeep] at hr2
  refine ⟨res1, res2, h1, h2, hp1, hp2, ?_, ?_⟩
  · rw [hr1]
    decide
  · rw [hr2]
    decide

/-! ## The claims -/

/-- C1: whatever the generator holds (request, template, extension, root
directory, prior response) and however the files render, a response returned by
`Generate` never has both a non-empty file sequence and a set error field; and
the call does return a response whenever the generator's response object is
allocated and its template is set. -/
theorem Generate_files_error_exclusive (h : Helpers) (g : Generator) :
    (∀ res r, g.Generate h = some res → res.response = some r →
      ¬ (r.File ≠ [] ∧ r.Error ≠ none)) ∧
    (g.response ≠ none → g.Template ≠ none →
      ∃ res r, g.Generate h = some res ∧ res.response = some r) := by
  constructor
  · intro res r hres hr hboth
    obtain ⟨_, r', hr', _, hex⟩ := Generate_some h g res hres
    rw [hr] at hr'
    cases hr'
    rcases hex with hfile | herr
    · exact hboth.1 hfile
    · exact hboth.2 herr
  · intro hresp htmpl
    obtain ⟨res, hres⟩ := Generate_returns h g hresp htmpl
    obtain ⟨_, r, hr, _, _⟩ := Generate_some h g res hres
    exact ⟨res, r, hres, hr⟩

/-- Witness of C1: the two-file generator whose template fails on `b.proto`,
reused after a call that left files and an error behind. -/
theorem Generate_files_error_exclusive_witness :
    ∃ res r, (twoFiles (failingTemplate "b.proto" "bad field") staleResponse).Generate
        specHelpers = some res ∧ res.response = some r ∧ ¬ (r.File ≠ [] ∧ r.Error ≠ none) := by
  have hall := Generate_files_error_exclusive specHelpers
    (twoFiles (failingTemplate "b.proto" "bad field") staleResponse)
  obtain ⟨res, r, hres, hr⟩ := hall.2 (by simp [twoFiles]) (by simp [twoFiles])
  exact ⟨res, r, hres, hr, hall.1 res r hres hr⟩

/-- C2: when every file of the request renders, `Generate` returns a response
whose error field is unset and whose file sequence has one record per input
file, in input order: the name of the i-th record is
`unixPath (stripExt (name of the i-th file) ++ resolved extension)` and its
content is the text rendered for the i-th file. -/
theorem Generate_all_rendered (h : Helpers) (req : Option CodeGeneratorRequest) (t : Template)
    (extension root : String) (prior : CodeGeneratorResponse)
    (hok : ∀ f ∈ CodeGeneratorRequest.GetProtoFile req,
      (t.Execute { f := f, ext := resolveExt h t extension, rootDir := root,
                   protoFile := CodeGeneratorRequest.GetProtoFile req } f).2 = none) :
    ∃ res, Generator.Generate h
        { Request := req, Template := some t, Extension := extension, RootDir := root,
          response := some prior } = some res ∧
      res.err = none ∧
      res.response = some
        { Error := none,
          File := (CodeGeneratorRequest.GetProtoFile req).map fun f =>
            { Name := some (h.unixPath (h.stripExt f.GetName ++ resolveExt h t extension)),
              InsertionPoint := none,
              Content := some
                (t.Execute { f := f, ext := resolveExt h t extension, rootDir := root,
                             protoFile := CodeGeneratorRequest.GetProtoFile req } f).1 } } := by
  refine ⟨_, Generate_eq h req t extension root prior, rfl, ?_⟩
  simp only
  rw [expected_of_ok _ _ _ (failures_eq_nil_of_ok t root _ _ hok),
    rendered_outcomes h t root _ _ _ hok]

/-- Witness of C2: the scenario of the two files `a.proto` and `b.proto`,
extension `.txt`, and a template that renders the file name. -/
theorem Generate_all_rendered_witness :
    ∃ res, (twoFiles nameTemplate staleResponse).Generate specHelpers = some res ∧
      res.err = none ∧
      res.response = some
        { Error := none,
          File := [{ Name := some "a.txt", InsertionPoint := none, Content := some "a.proto" },
                   { Name := some "b.txt", InsertionPoint := none,
                     Content := some "b.proto" }] } :=
  Generate_all_rendered specHelpers
    (some (requestOf [protoNamed "a.proto", protoNamed "b.proto"])) nameTemplate ".txt" ""
    staleResponse (fun _ _ => rfl)

/-- C3: when at least one file of the request fails to render, at whatever
position and with whatever message (the empty one included), `Generate` returns
a response with an empty file sequence, the files that rendered being dropped
too, and with its error field set. -/
theorem Generate_failure_drops_files (h : Helpers) (req : Option CodeGeneratorRequest)
    (t : Template) (extension root : String) (prior : CodeGeneratorResponse)
    (f : FileDescriptorProto) (hf : f ∈ CodeGeneratorRequest.GetProtoFile req)
    (hfail : (t.Execute { f := f, ext := resolveExt h t extension, rootDir := root,
                          protoFile := CodeGeneratorRequest.GetProtoFile req } f).2 ≠ none) :
    ∃ res r, Generator.Generate h
        { Request := req, Template := some t, Extension := extension, RootDir := root,
          response := some prior } = some res ∧
      res.response = some r ∧ r.File = [] ∧ r.Error ≠ none := by
  refine ⟨_, _, Generate_eq h req t extension root prior, rfl, ?_⟩
  rw [expected_of_fail _ _ _ (failures_ne_nil_of_fail t root _ _ f hf hfail)]
  exact ⟨rfl, by simp⟩

/-- Witness of C3: of the two files, `a.proto` renders and `b.proto` fails with
the empty message. -/
theorem Generate_failure_drops_files_witness :
    ∃ res r, (twoFiles (failingTemplate "b.proto" "") staleResponse).Generate specHelpers =
        some res ∧ res.response = some r ∧ r.File = [] ∧ r.Error ≠ none :=
  Generate_failure_drops_files specHelpers
    (some (requestOf [protoNamed "a.proto", protoNamed "b.proto"]))
    (failingTemplate "b.proto" "") ".txt" "" staleResponse (protoNamed "b.proto")
    (by decide) (by decide)

/-- C4: when at least one file fails to render, the error field of the response
returned by `Generate` is the concatenation, in processing order, of one line
per failing file, the line being the message of that file's error followed by a
newline; every file is attempted, so the files failing after an earlier failure
have their line too. -/
theorem Generate_error_is_all_lines (h : Helpers) (req : Option CodeGeneratorRequest)
    (t : Template) (extension root : String) (prior : CodeGeneratorResponse)
    (f : FileDescriptorProto) (hf : f ∈ CodeGeneratorRequest.GetProtoFile req)
    (hfail : (t.Execute { f := f, ext := resolveExt h t extension, rootDir := root,
                          protoFile := CodeGeneratorRequest.GetProtoFile req } f).2 ≠ none) :
    ∃ res r, Generator.Generate h
        { Request := req, Template := some t, Extension := extension, RootDir := root,
          response := some prior } = some res ∧
      res.response = some r ∧
      r.Error = some (String.join
        (((CodeGeneratorRequest.GetProtoFile req).filterMap fun f' =>
            (t.Execute { f := f', ext := resolveExt h t extension, rootDir := root,
                         protoFile := CodeGeneratorRequest.GetProtoFile req } f').2).map
          fun e => e ++ "\n")) := by
  refine ⟨_, _, Generate_eq h req t extension root prior, rfl, ?_⟩
  rw [expected_of_fail _ _ _ (failures_ne_nil_of_fail t root _ _ f hf hfail),
    errorText_eq_join, failures_outcomes]

/-- Witness of C4: both files fail, and both messages are reported, in order. -/
theorem Generate_error_is_all_lines_witness :
    ∃ res r, (twoFiles alwaysFailing staleResponse).Generate specHelpers = some res ∧
      res.response = some r ∧ r.Error = some "a.proto\nb.proto\n" :=
  Generate_error_is_all_lines specHelpers
    (some (requestOf [protoNamed "a.proto", protoNamed "b.proto"]))
    alwaysFailing ".txt" "" staleResponse (protoNamed "a.proto") (by decide) (by decide)

/-- C5, counterexample: of the two files only `b.proto` fails, with a message
that contains a newline; the error field then has two lines for one failing
file. -/
theorem Generate_error_line_count_counterexample :
    ∃ res r txt,
      (twoFiles (failingTemplate "b.proto" "bad\nfield") staleResponse).Generate specHelpers =
        some res ∧
      res.response = some r ∧ r.Error = some txt ∧
      ([protoNamed "a.proto", protoNamed "b.proto"].filter fun f =>
        ((failingTemplate "b.proto" "bad\nfield").Execute
          { f := f, ext := ".txt", rootDir := "",
            protoFile := [protoNamed "a.proto", protoNamed "b.proto"] } f).2.isSome).length = 1 ∧
      lines txt = ["bad", "field"] ∧
      (lines txt).length ≠
        ([protoNamed "a.proto", protoNamed "b.proto"].filter fun f =>
          ((failingTemplate "b.proto" "bad\nfield").Execute
            { f := f, ext := ".txt", rootDir := "",
              protoFile := [protoNamed "a.proto", protoNamed "b.proto"] } f).2.isSome).length :=
  ⟨_, _, "bad\nfield\n",
    Generate_eq specHelpers (some (requestOf [protoNamed "a.proto", protoNamed "b.proto"]))
      (failingTemplate "b.proto" "bad\nfield") ".txt" "" staleResponse,
    rfl, by decide, by decide, by decide, by decide⟩

/-- C5, amended: when at least one file fails to render and no error message
contains a newline character, the lines of the error field of the response
returned by `Generate` are exactly the messages of the failing files, in
processing order; so the error field has as many lines as there are failing
files. -/
theorem Generate_error_one_line_per_failure (h : Helpers) (req : Option CodeGeneratorRequest)
    (t : Template) (extension root : String) (prior : CodeGeneratorResponse)
    (f : FileDescriptorProto) (hf : f ∈ CodeGeneratorRequest.GetProtoFile req)
    (hfail : (t.Execute { f := f, ext := resolveExt h t extension, rootDir := root,
                          protoFile := CodeGeneratorRequest.GetProtoFile req } f).2 ≠ none)
    (hnl : ∀ f' ∈ CodeGeneratorRequest.GetProtoFile req, ∀ e,
      (t.Execute { f := f', ext := resolveExt h t extension, rootDir := root,
                   protoFile := CodeGeneratorRequest.GetProtoFile req } f').2 = some e →
      '\n' ∉ e.data) :
    ∃ res r txt, Generator.Generate h
        { Request := req, Template := some t, Extension := extension, RootDir := root,
          response := some prior } = some res ∧
      res.response = some r ∧ r.Error = some txt ∧
      lines txt =
        ((CodeGeneratorRequest.GetProtoFile req).filterMap fun f' =>
          (t.Execute { f := f', ext := resolveExt h t extension, rootDir := root,
                       protoFile := CodeGeneratorRequest.GetProtoFile req } f').2) ∧
      (lines txt).length =
        ((CodeGeneratorRequest.GetProtoFile req).filter fun f' =>
          (t.Execute { f := f', ext := resolveExt h t extension, rootDir := root,
                       protoFile := CodeGeneratorRequest.GetProtoFile req } f').2.isSome).length := by
  have hlines : lines (errorText (failures (outcomes t root (resolveExt h t extension)
      (CodeGeneratorRequest.GetProtoFile req) (CodeGeneratorRequest.GetProtoFile req)))) =
      ((CodeGeneratorRequest.GetProtoFile req).filterMap fun f' =>
        (t.Execute { f := f', ext := resolveExt h t extension, rootDir := root,
                     protoFile := CodeGeneratorRequest.GetProtoFile req } f').2) := by
    rw [failures_outcomes]
    apply lines_errorText
    intro e he
    obtain ⟨f', hf', he'⟩ := List.mem_filterMap.mp he
    exact hnl f' hf' e he'
  refine ⟨_, _, _, Generate_eq h req t extension root prior, rfl, ?_, hlines, ?_⟩
  · rw [expected_of_fail _ _ _ (failures_ne_nil_of_fail t root _ _ f hf hfail)]
  · rw [hlines, length_filterMap_eq_length_filter]

/-- Witness of C5 as amended: both files fail, with the messages `a.proto` and
`b.proto`; the error field has these two lines. -/
theorem Generate_error_one_line_per_failure_witness :
    ∃ res r txt, (twoFiles alwaysFailing staleResponse).Generate specHelpers = some res ∧
      res.response = some r ∧ r.Error = some txt ∧
      lines txt = ["a.proto", "b.proto"] ∧ (lines txt).length = 2 :=
  Generate_error_one_line_per_failure specHelpers
    (some (requestOf [protoNamed "a.proto", protoNamed "b.proto"]))
    alwaysFailing ".txt" "" staleResponse (protoNamed "a.proto") (by decide) (by decide)
    (by
      intro f' hf' e he
      have hcases : f' = protoNamed "a.proto" ∨ f' = protoNamed "b.proto" := by
        simpa [CodeGeneratorRequest.GetProtoFile, requestOf] using hf'
      rcases hcases with hEq | hEq <;> subst hEq <;> cases he <;> decide)

/-- C6: for a request with zero schema files (a nil request included), whatever
the extension, the root directory and the prior response, `Generate` returns a
response with an empty file sequence and no error. -/
theorem Generate_no_files (h : Helpers) (req : Option CodeGeneratorRequest) (t : Template)
    (extension root : String) (prior : CodeGeneratorResponse)
    (hempty : CodeGeneratorRequest.GetProtoFile req = []) :
    ∃ res, Generator.Generate h
        { Request := req, Template := some t, Extension := extension, RootDir := root,
          response := some prior } = some res ∧
      res.err = none ∧ res.response = some { Error := none, File := [] } := by
  refine ⟨_, Generate_eq h req t extension root prior, rfl, ?_⟩
  simp only [hempty]
  rfl

/-- Witness of C6: a request without files on a generator that still holds the
files and the error of an earlier call, with the extension left empty. -/
theorem Generate_no_files_witness :
    ∃ res, Generator.Generate specHelpers
        { Request := some (requestOf []), Template := some nameTemplate, Extension := "",
          RootDir := "root", response := some staleResponse } = some res ∧
      res.err = none ∧ res.response = some { Error := none, File := [] } :=
  Generate_no_files specHelpers (some (requestOf [])) nameTemplate "" "root" staleResponse rfl

/-- C7: `Generate` never returns a function-level error.  Whatever the
generator holds and however the files render, a call that returns hands back a
nil error and a non-nil response; and on a generator whose response object is
allocated and whose template is set the call does return, also when files fail
to render, a failure being reported through the error field of the response
only. -/
theorem Generate_never_returns_error (h : Helpers) (g : Generator) :
    (∀ res, g.Generate h = some res → res.err = none ∧ res.response ≠ none) ∧
    (g.response ≠ none → ∀ t, g.Template = some t →
      ∃ res r, g.Generate h = some res ∧ res.err = none ∧ res.response = some r ∧
        ((∃ f ∈ CodeGeneratorRequest.GetProtoFile g.Request,
            (t.Execute { f := f, ext := resolveExt h t g.Extension, rootDir := g.RootDir,
                         protoFile := CodeGeneratorRequest.GetProtoFile g.Request } f).2 ≠ none) →
          r.Error ≠ none)) := by
  constructor
  · intro res hres
    obtain ⟨herr, r, hr, _, _⟩ := Generate_some h g res hres
    exact ⟨herr, by simp [hr]⟩
  · intro hresp t ht
    obtain ⟨req, tmplOpt, extension, root, respOpt⟩ := g
    cases respOpt with
    | none => exact absurd rfl hresp
    | some prior =>
      simp only at ht
      subst ht
      refine ⟨_, _, Generate_eq h req t extension root prior, rfl, rfl, ?_⟩
      rintro ⟨f, hf, hfail⟩
      rw [expected_of_fail _ _ _ (failures_ne_nil_of_fail t root _ _ f hf hfail)]
      simp

/-- Witness of C7: every file of the batch fails; the call still returns a nil
error and a response, whose error field is set. -/
theorem Generate_never_returns_error_witness :
    ∃ res r, (twoFiles alwaysFailing staleResponse).Generate specHelpers = some res ∧
      res.err = none ∧ res.response = some r ∧ r.Error ≠ none := by
  have hall := Generate_never_returns_error specHelpers (twoFiles alwaysFailing staleResponse)
  obtain ⟨res, r, hres, herr, hr, hfail⟩ := hall.2 (by simp [twoFiles]) alwaysFailing rfl
  exact ⟨res, r, hres, (hall.1 res hres).1, hr,
    hfail ⟨protoNamed "a.proto", by decide, by decide⟩⟩

/-- C8: at the input where the template fails on `b.proto` with the error
`bad field`, `Generate` returns a nil error together with a non-nil response
that carries the message in its error field; the doc comment of `Generate`
promises that the error is returned and that the response is nil. -/
theorem Generate_docstring_divergence :
    ((failingTemplate "b.proto" "bad field").Execute
        { f := protoNamed "b.proto", ext := ".txt", rootDir := "",
          protoFile := [protoNamed "a.proto", protoNamed "b.proto"] }
        (protoNamed "b.proto")).2 = some "bad field" ∧
    ∃ res, (twoFiles (failingTemplate "b.proto" "bad field") staleResponse).Generate
        specHelpers = some res ∧
      res.err = none ∧
      res.response = some { Error := some "bad field\n", File := [] } :=
  ⟨by decide, _,
    Generate_eq specHelpers (some (requestOf [protoNamed "a.proto", protoNamed "b.proto"]))
      (failingTemplate "b.proto" "bad field") ".txt" "" staleResponse,
    rfl, by decide⟩

/-- What `Generate` does with an error met while executing the template on
some file, for every request: it returns a nil error and a non-nil response
whose error field is set and contains the message of that error followed by a
newline. -/
theorem Generate_error_in_response_only (h : Helpers) (req : Option CodeGeneratorRequest)
    (t : Template) (extension root : String) (prior : CodeGeneratorResponse)
    (f : FileDescriptorProto) (e : String) (hf : f ∈ CodeGeneratorRequest.GetProtoFile req)
    (hfail : (t.Execute { f := f, ext := resolveExt h t extension, rootDir := root,
                          protoFile := CodeGeneratorRequest.GetProtoFile req } f).2 = some e) :
    ∃ res r before after, Generator.Generate h
        { Request := req, Template := some t, Extension := extension, RootDir := root,
          response := some prior } = some res ∧
      res.err = none ∧ res.response = some r ∧
      r.Error = some (before ++ (e ++ "\n") ++ after) := by
  have hne : (t.Execute { f := f, ext := resolveExt h t extension, rootDir := root,
                          protoFile := CodeGeneratorRequest.GetProtoFile req } f).2 ≠ none := by
    rw [hfail]
    simp
  have hmem : e ∈ failures (outcomes t root (resolveExt h t extension)
      (CodeGeneratorRequest.GetProtoFile req) (CodeGeneratorRequest.GetProtoFile req)) := by
    rw [failures_outcomes]
    exact List.mem_filterMap.mpr ⟨f, hf, hfail⟩
  obtain ⟨before, after, htxt⟩ := errorText_of_mem e _ hmem
  refine ⟨_, _, before, after, Generate_eq h req t extension root prior, rfl, rfl, ?_⟩
  rw [expected_of_fail _ _ _ (failures_ne_nil_of_fail t root _ _ f hf hne), htxt]

/-- The scenario in which `b.proto` fails with `bad field`. -/
theorem Generate_error_in_response_only_witness :
    ∃ res r before after,
      (twoFiles (failingTemplate "b.proto" "bad field") staleResponse).Generate specHelpers =
        some res ∧
      res.err = none ∧ res.response = some r ∧
      r.Error = some (before ++ ("bad field" ++ "\n") ++ after) :=
  Generate_error_in_response_only specHelpers
    (some (requestOf [protoNamed "a.proto", protoNamed "b.proto"]))
    (failingTemplate "b.proto" "bad field") ".txt" "" staleResponse (protoNamed "b.proto")
    "bad field" (by decide) (by decide)

/-- C9: calling `Generate` twice in succession on the same generator, the
rendering being a function of the template, the helper context and the file,
gives two equal results: the same response (names, contents, order, error
field) and the same nil error; the second call also leaves the generator as the
first one did. -/
theorem Generate_idempotent (h : Helpers) (req : Option CodeGeneratorRequest) (t : Template)
    (extension root : String) (prior : CodeGeneratorResponse) :
    ∃ res1 res2,
      Generator.Generate h
        { Request := req, Template := some t, Extension := extension, RootDir := root,
          response := some prior } = some res1 ∧
      res1.g.Generate h = some res2 ∧
      res2.response = res1.response ∧ res2.err = res1.err ∧
      res2.g.response = res1.g.response :=
  ⟨_, _, Generate_eq h req t extension root prior, Generate_eq h req t extension root _,
    rfl, rfl, rfl⟩

/-- C10: the result of `Generate` does not depend on the response state the
generator holds on entry.  For every prior response state the call returns what
it returns on a fresh generator (one from `New`) given the same request,
template, extension and root directory; the same holds when the prior state is
the one left by an earlier call of `Generate`, whatever that call was given. -/
theorem Generate_reset_on_entry (h : Helpers) (req : Option CodeGeneratorRequest)
    (t : Template) (extension root : String) :
    ∃ fresh,
      Generator.Generate h
        { Request := req, Template := some t, Extension := extension, RootDir := root,
          response := New.response } = some fresh ∧
      (∀ prior, ∃ res,
        Generator.Generate h
          { Request := req, Template := some t, Extension := extension, RootDir := root,
            response := some prior } = some res ∧
        res.response = fresh.response ∧ res.err = fresh.err) ∧
      (∀ (g0 : Generator) (res0 : GenerateResult), g0.Generate h = some res0 → ∃ res,
        Generator.Generate h
          { Request := req, Template := some t, Extension := extension, RootDir := root,
            response := res0.g.response } = some res ∧
        res.response = fresh.response ∧ res.err = fresh.err) := by
  refine ⟨_, Generate_eq h req t extension root _, ?_, ?_⟩
  · intro prior
    exact ⟨_, Generate_eq h req t extension root prior, rfl, rfl⟩
  · intro g0 res0 hres0
    obtain ⟨_, r0, _, hg0, _⟩ := Generate_some h g0 res0 hres0
    rw [hg0]
    exact ⟨_, Generate_eq h req t extension root r0, rfl, rfl⟩

/-- Witness of C10: a first call in which every file fails, followed on the same
generator by a call with a template that renders every file; the second call
returns the two files and no error, as on a fresh generator. -/
theorem Generate_reset_on_entry_witness :
    ∃ res0 res,
      (twoFiles alwaysFailing staleResponse).Generate specHelpers = some res0 ∧
      res0.response = some { Error := some "a.proto\nb.proto\n", File := [] } ∧
      Generator.Generate specHelpers
        { Request := some (requestOf [protoNamed "a.proto", protoNamed "b.proto"]),
          Template := some nameTemplate, Extension := ".txt", RootDir := "",
          response := res0.g.response } = some res ∧
      res.response = some
        { Error := none,
          File := [{ Name := some "a.txt", InsertionPoint := none, Content := some "a.proto" },
                   { Name := some "b.txt", InsertionPoint := none,
                     Content := some "b.proto" }] } := by
  obtain ⟨fresh, hfresh, _, hseq⟩ := Generate_reset_on_entry specHelpers
    (some (requestOf [protoNamed "a.proto", protoNamed "b.proto"])) nameTemplate ".txt" ""
  have hfirst := Generate_eq specHelpers
    (some (requestOf [protoNamed "a.proto", protoNamed "b.proto"])) alwaysFailing ".txt" ""
    staleResponse
  obtain ⟨res, hres, hresp, _⟩ := hseq _ _ hfirst
  refine ⟨_, res, hfirst, by decide, hres, ?_⟩
  rw [hresp]
  have hsame := (Generate_eq specHelpers
    (some (requestOf [protoNamed "a.proto", protoNamed "b.proto"])) nameTemplate ".txt" ""
    _).symm.trans hfresh
  cases hsame
  decide

/-- C11: `Generate` resolves the extension once per call.  A non-empty
`Extension` is used as it stands, whatever `findExt` would answer and whatever
the source names of the template are; an empty `Extension` is replaced by what
`findExt` derives from the template.  The one resolved value is used for every
file of the request, in the helper context the file is rendered with and in the
name of its output record. -/
theorem Generate_extension_resolved_once (h : Helpers) (req : Option CodeGeneratorRequest)
    (t : Template) (extension root : String) (prior : CodeGeneratorResponse) :
    ∃ E res r,
      Generator.Generate h
        { Request := req, Template := some t, Extension := extension, RootDir := root,
          response := some prior } = some res ∧
      res.response = some r ∧
      (extension ≠ "" → E = extension) ∧
      (extension = "" → E = h.findExt t) ∧
      (extension ≠ "" → ∀ (fe : Template → String) (names : List String),
        ∃ res', Generator.Generate
            { findExt := fe, stripExt := h.stripExt, unixPath := h.unixPath }
            { Request := req, Template := some { Templates := names, Execute := t.Execute },
              Extension := extension, RootDir := root, response := some prior } = some res' ∧
          res'.response = some r) ∧
      ((∀ f ∈ CodeGeneratorRequest.GetProtoFile req,
          (t.Execute { f := f, ext := E, rootDir := root,
                       protoFile := CodeGeneratorRequest.GetProtoFile req } f).2 = none) →
        r.File = (CodeGeneratorRequest.GetProtoFile req).map fun f =>
          { Name := some (h.unixPath (h.stripExt f.GetName ++ E)), InsertionPoint := none,
            Content := some
              (t.Execute { f := f, ext := E, rootDir := root,
                           protoFile := CodeGeneratorRequest.GetProtoFile req } f).1 }) ∧
      ((∃ f ∈ CodeGeneratorRequest.GetProtoFile req,
          (t.Execute { f := f, ext := E, rootDir := root,
                       protoFile := CodeGeneratorRequest.GetProtoFile req } f).2 ≠ none) →
        r.Error = some (String.join
          (((CodeGeneratorRequest.GetProtoFile req).filterMap fun f =>
              (t.Execute { f := f, ext := E, rootDir := root,
                           protoFile := CodeGeneratorRequest.GetProtoFile req } f).2).map
            fun e => e ++ "\n"))) := by
  refine ⟨resolveExt h t extension, _, _, Generate_eq h req t extension root prior, rfl,
    resolveExt_of_ne_empty h t extension, ?_, ?_, ?_, ?_⟩
  · intro hempty
    subst hempty
    exact resolveExt_of_empty h t
  · intro hne fe names
    refine ⟨_, Generate_eq _ req _ extension root prior, ?_⟩
    simp only [resolveExt_of_ne_empty _ _ extension hne]
    rw [outcomes_congr t { Templates := names, Execute := t.Execute } root extension _ _
      (fun _ _ => rfl)]
    exact congrArg some (expected_helpers_congr h
      { findExt := fe, stripExt := h.stripExt, unixPath := h.unixPath } rfl rfl _ _)
  · intro hok
    simp only [expected_ok_eq h t root _ _ hok]
  · rintro ⟨f, hf, hfail⟩
    simp only [expected_fail_eq h t root _ _ f hf hfail]

/-- Witness of C11: the extension is left empty and the template was parsed
from `name.txt`; both files are named with `.txt`. -/
theorem Generate_extension_resolved_once_witness :
    ∃ res r,
      Generator.Generate specHelpers
        { Request := some (requestOf [protoNamed "a.proto", protoNamed "b.proto"]),
          Template := some nameTemplate, Extension := "", RootDir := "",
          response := some staleResponse } = some res ∧
      res.response = some r ∧
      r.File = [{ Name := some "a.txt", InsertionPoint := none, Content := some "a.proto" },
                { Name := some "b.txt", InsertionPoint := none, Content := some "b.proto" }] := by
  obtain ⟨E, res, r, hres, hr, _, hempty, _, hok, _⟩ :=
    Generate_extension_resolved_once specHelpers
      (some (requestOf [protoNamed "a.proto", protoNamed "b.proto"])) nameTemplate "" ""
      staleResponse
  have hE := hempty rfl
  subst hE
  exact ⟨res, r, hres, hr, hok fun _ _ => rfl⟩

/-- C12: for every request and every index `i`, the `i`-th file is rendered by
executing the template with that file as data value and with a helper context
that holds that file as current file, the whole ordered file list of the
request, the extension resolved for the call and the root directory of the
generator.  The response shows the outcome of exactly these executions (content
of the `i`-th record, error lines), and depends on the template through them
only. -/
theorem Generate_context_per_file (h : Helpers) (req : Option CodeGeneratorRequest)
    (t : Template) (extension root : String) (prior : CodeGeneratorResponse) :
    ∃ res r,
      Generator.Generate h
        { Request := req, Template := some t, Extension := extension, RootDir := root,
          response := some prior } = some res ∧
      res.response = some r ∧
      ((∀ f ∈ CodeGeneratorRequest.GetProtoFile req,
          (t.Execute { f := f, ext := resolveExt h t extension, rootDir := root,
                       protoFile := CodeGeneratorRequest.GetProtoFile req } f).2 = none) →
        ∀ (i : Nat) (f : FileDescriptorProto),
          (CodeGeneratorRequest.GetProtoFile req)[i]? = some f →
          (r.File[i]?).map (fun o => o.Content) = some (some
            (t.Execute { f := f, ext := resolveExt h t extension, rootDir := root,
                         protoFile := CodeGeneratorRequest.GetProtoFile req } f).1)) ∧
      ((∃ f ∈ CodeGeneratorRequest.GetProtoFile req,
          (t.Execute { f := f, ext := resolveExt h t extension, rootDir := root,
                       protoFile := CodeGeneratorRequest.GetProtoFile req } f).2 ≠ none) →
        r.Error = some (String.join
          (((CodeGeneratorRequest.GetProtoFile req).filterMap fun f =>
              (t.Execute { f := f, ext := resolveExt h t extension, rootDir := root,
                           protoFile := CodeGeneratorRequest.GetProtoFile req } f).2).map
            fun e => e ++ "\n"))) ∧
      (∀ t' : Template, h.findExt t' = h.findExt t →
        (∀ f ∈ CodeGeneratorRequest.GetProtoFile req,
          t'.Execute { f := f, ext := resolveExt h t extension, rootDir := root,
                       protoFile := CodeGeneratorRequest.GetProtoFile req } f =
            t.Execute { f := f, ext := resolveExt h t extension, rootDir := root,
                        protoFile := CodeGeneratorRequest.GetProtoFile req } f) →
        ∃ res', Generator.Generate h
            { Request := req, Template := some t', Extension := extension, RootDir := root,
              response := some prior } = some res' ∧
          res'.response = some r) := by
  refine ⟨_, _, Generate_eq h req t extension root prior, rfl, ?_, ?_, ?_⟩
  · intro hok i f hi
    simp only [expected_ok_eq h t root _ _ hok, List.getElem?_map, hi, Option.map_some']
  · rintro ⟨f, hf, hfail⟩
    simp only [expected_fail_eq h t root _ _ f hf hfail]
  · intro t' hext hsame
    have hres : resolveExt h t' extension = resolveExt h t extension := by
      simp [resolveExt, hext]
    refine ⟨_, Generate_eq h req t' extension root prior, ?_⟩
    simp only [hres]
    rw [outcomes_congr t t' root _ _ _ hsame]

/-- Witness of C12: a template that renders its helper context and its data
value, on the two files `a.proto` and `b.proto` with extension `.txt` and root
directory `root`. -/
theorem Generate_context_per_file_witness :
    ∃ res r,
      Generator.Generate specHelpers
        { Request := some (requestOf [protoNamed "a.proto", protoNamed "b.proto"]),
          Template := some probeTemplate, Extension := ".txt", RootDir := "root",
          response := some staleResponse } = some res ∧
      res.response = some r ∧
      (r.File[0]?).map (fun o => o.Content) =
        some (some "a.proto|.txt|root|a.proto;b.proto;|a.proto") ∧
      (r.File[1]?).map (fun o => o.Content) =
        some (some "b.proto|.txt|root|a.proto;b.proto;|b.proto") := by
  obtain ⟨res, r, hres, hr, hok, _, _⟩ :=
    Generate_context_per_file specHelpers
      (some (requestOf [protoNamed "a.proto", protoNamed "b.proto"])) probeTemplate ".txt"
      "root" staleResponse
  exact ⟨res, r, hres, hr, hok (fun _ _ => rfl) 0 (protoNamed "a.proto") rfl,
    hok (fun _ _ => rfl) 1 (protoNamed "b.proto") rfl⟩

/-- C13: `New` returns a generator whose request is present and empty (no
schema file), whose response is present and empty (no output file, no error)
and whose `Extension` and `RootDir` are empty; so, once a template is set on it,
`Generate` with the request left unpopulated returns an empty response with no
error. -/
theorem New_ready :
    New.Request = some { FileToGenerate := [], Parameter := none, ProtoFile := [] } ∧
    CodeGeneratorRequest.GetProtoFile New.Request = [] ∧
    New.response = some { Error := none, File := [] } ∧
    New.Extension = "" ∧ New.RootDir = "" ∧
    ∀ (h : Helpers) (t : Template),
      ∃ res, Generator.Generate h
          { Request := New.Request, Template := some t, Extension := New.Extension,
            RootDir := New.RootDir, response := New.response } = some res ∧
        res.err = none ∧ res.response = some { Error := none, File := [] } := by
  refine ⟨rfl, rfl, rfl, rfl, rfl, ?_⟩
  intro h t
  exact ⟨_, Generate_eq h New.Request t "" "" { Error := none, File := [] }, rfl, rfl⟩

/-- C14, counterexample: the distinct names `a.proto` and `a.pb` both give the
output name `a.txt`; the output sequence holds two records, and the record of
the earlier file is still there with its own content. -/
theorem Generate_overwrites_counterexample :
    protoNamed "a.proto" ≠ protoNamed "a.pb" ∧
    specHelpers.unixPath (specHelpers.stripExt "a.proto" ++ ".txt") =
      specHelpers.unixPath (specHelpers.stripExt "a.pb" ++ ".txt") ∧
    ∃ res, Generator.Generate specHelpers
        { Request := some (requestOf [protoNamed "a.proto", protoNamed "a.pb"]),
          Template := some nameTemplate, Extension := ".txt", RootDir := "",
          response := some staleResponse } = some res ∧
      res.response = some
        { Error := none,
          File := [{ Name := some "a.txt", InsertionPoint := none, Content := some "a.proto" },
                   { Name := some "a.txt", InsertionPoint := none,
                     Content := some "a.pb" }] } :=
  ⟨by decide, by decide, _,
    Generate_eq specHelpers (some (requestOf [protoNamed "a.proto", protoNamed "a.pb"]))
      nameTemplate ".txt" "" staleResponse,
    by decide⟩

/-- C14, amended: `Generate` performs no uniqueness check on output names.  In
an all-successful request where the files at positions `i < j` get the same
output name, the output sequence still has one record per input file, and the
records at positions `i` and `j` are those of the two files, each with its own
content and both under the same name: the record of the earlier file is kept,
not replaced. -/
theorem Generate_keeps_colliding_records (h : Helpers) (req : Option CodeGeneratorRequest)
    (t : Template) (extension root : String) (prior : CodeGeneratorResponse)
    (hok : ∀ f ∈ CodeGeneratorRequest.GetProtoFile req,
      (t.Execute { f := f, ext := resolveExt h t extension, rootDir := root,
                   protoFile := CodeGeneratorRequest.GetProtoFile req } f).2 = none)
    (i j : Nat) (fi fj : FileDescriptorProto) (_hij : i < j)
    (hi : (CodeGeneratorRequest.GetProtoFile req)[i]? = some fi)
    (hj : (CodeGeneratorRequest.GetProtoFile req)[j]? = some fj)
    (hname : h.unixPath (h.stripExt fi.GetName ++ resolveExt h t extension) =
      h.unixPath (h.stripExt fj.GetName ++ resolveExt h t extension)) :
    ∃ res r, Generator.Generate h
        { Request := req, Template := some t, Extension := extension, RootDir := root,
          response := some prior } = some res ∧
      res.response = some r ∧
      r.File.length = (CodeGeneratorRequest.GetProtoFile req).length ∧
      r.File[i]? = some
        { Name := some (h.unixPath (h.stripExt fi.GetName ++ resolveExt h t extension)),
          InsertionPoint := none,
          Content := some
            (t.Execute { f := fi, ext := resolveExt h t extension, rootDir := root,
                         protoFile := CodeGeneratorRequest.GetProtoFile req } fi).1 } ∧
      r.File[j]? = some
        { Name := some (h.unixPath (h.stripExt fi.GetName ++ resolveExt h t extension)),
          InsertionPoint := none,
          Content := some
            (t.Execute { f := fj, ext := resolveExt h t extension, rootDir := root,
                         protoFile := CodeGeneratorRequest.GetProtoFile req } fj).1 } := by
  refine ⟨_, _, Generate_eq h req t extension root prior, rfl, ?_, ?_, ?_⟩
  · simp only [expected_ok_eq h t root _ _ hok, List.length_map]
  · simp only [expected_ok_eq h t root _ _ hok, List.getElem?_map, hi, Option.map_some']
  · simp only [expected_ok_eq h t root _ _ hok, List.getElem?_map, hj, Option.map_some', hname]

/-- Witness of C14 as amended: `a.proto` and `a.pb`, both named `a.txt` in the
output. -/
theorem Generate_keeps_colliding_records_witness :
    ∃ res r, Generator.Generate specHelpers
        { Request := some (requestOf [protoNamed "a.proto", protoNamed "a.pb"]),
          Template := some nameTemplate, Extension := ".txt", RootDir := "",
          response := some staleResponse } = some res ∧
      res.response = some r ∧
      r.File.length = 2 ∧
      r.File[0]? = some
        { Name := some "a.txt", InsertionPoint := none, Content := some "a.proto" } ∧
      r.File[1]? = some
        { Name := some "a.txt", InsertionPoint := none, Content := some "a.pb" } :=
  Generate_keeps_colliding_records specHelpers
    (some (requestOf [protoNamed "a.proto", protoNamed "a.pb"])) nameTemplate ".txt" ""
    staleResponse (fun _ _ => rfl) 0 1 (protoNamed "a.proto") (protoNamed "a.pb")
    (by decide) rfl rfl (by decide)

/-- C15, counterexample: on the generator of the two files, the call also
changes the template object: its function map, which held no helper context,
holds after the call the helper context of `b.proto`.  So the response is not
the only thing that changes. -/
theorem Generate_only_response_changes_counterexample :
    ∃ res,
      (twoFilesAt 0).Generate specHelpers scenarioStore = some res ∧
      (scenarioStore.templates 0).funcs = none ∧
      (res.store.templates 0).funcs =
        some { f := protoNamed "b.proto", ext := ".txt", rootDir := "",
               protoFile := [protoNamed "a.proto", protoNamed "b.proto"] } ∧
      (res.store.templates 0).funcs ≠ (scenarioStore.templates 0).funcs := by
  obtain ⟨res, hres, _, _, _, _, _, _, _, hfuncs⟩ := GenerateIn_eq specHelpers
    (some (requestOf [protoNamed "a.proto", protoNamed "b.proto"])) 0 7 ".txt" "" scenarioStore
  refine ⟨res, hres, rfl, ?_, ?_⟩
  · rw [hfuncs]
    decide
  · rw [hfuncs]
    decide

/-- C15, amended: after a call of `Generate` that returns, the request of the
generator (its file sequence, and the name of each file), its `Extension` and
its `RootDir` are what they were before the call, and its `Template` and
`response` fields point to the objects they pointed to.  The call writes to two
objects.  One is the response object.  The other is the template object: its
parsed template stays, and its function map is rebound for every file, so that
after a call with at least one file it holds the helper context of the last
file.  No other object changes.  The call returns whenever neither pointer is
nil. -/
theorem Generate_frame_on_store (h : Helpers) (g : GeneratorRef) (σ : Store) :
    (∀ res, g.Generate h σ = some res →
      res.g.Request = g.Request ∧
      CodeGeneratorRequest.GetProtoFile res.g.Request =
        CodeGeneratorRequest.GetProtoFile g.Request ∧
      (CodeGeneratorRequest.GetProtoFile res.g.Request).map FileDescriptorProto.GetName =
        (CodeGeneratorRequest.GetProtoFile g.Request).map FileDescriptorProto.GetName ∧
      res.g.Extension = g.Extension ∧ res.g.RootDir = g.RootDir ∧
      res.g.Template = g.Template ∧ res.g.response = g.response ∧
      (∀ rp, g.response = some rp → ∀ a, a ≠ rp → res.store.responses a = σ.responses a) ∧
      (g.Template = none → ∀ a, res.store.templates a = σ.templates a) ∧
      (∀ tp, g.Template = some tp →
        (∀ a, a ≠ tp → res.store.templates a = σ.templates a) ∧
        (res.store.templates tp).parsed = (σ.templates tp).parsed ∧
        (res.store.templates tp).funcs =
          match (CodeGeneratorRequest.GetProtoFile g.Request).getLast? with
          | none => (σ.templates tp).funcs
          | some f =>
            some { f := f, ext := resolveExt h (σ.templates tp).parsed g.Extension,
                   rootDir := g.RootDir,
                   protoFile := CodeGeneratorRequest.GetProtoFile g.Request })) ∧
    (g.response ≠ none → g.Template ≠ none → ∃ res, g.Generate h σ = some res) := by
  obtain ⟨req, tmplPtr, extension, root, respPtr⟩ := g
  constructor
  · intro res hres
    obtain ⟨hg, _, _, _⟩ := GenerateIn_some h _ σ res hres
    rw [hg]
    refine ⟨rfl, rfl, rfl, rfl, rfl, rfl, rfl, ?_, ?_, ?_⟩
    · intro rp hrp a ha
      simp only at hrp
      subst hrp
      cases tmplPtr with
      | none => exact (GenerateIn_nil_template h _ σ res rfl hres).2 rp rfl a ha
      | some tp =>
        obtain ⟨res', hres', _, _, _, _, hframeR, _⟩ :=
          GenerateIn_eq h req tp rp extension root σ
        rw [hres'] at hres
        cases hres
        exact hframeR a ha
    · intro htmpl
      exact (GenerateIn_nil_template h _ σ res htmpl hres).1
    · intro tp htmpl
      simp only at htmpl
      subst htmpl
      cases respPtr with
      | none => simp [GeneratorRef.Generate] at hres
      | some rp =>
        obtain ⟨res', hres', _, _, _, _, _, hframeT, hparsed, hfuncs⟩ :=
          GenerateIn_eq h req tp rp extension root σ
        rw [hres'] at hres
        cases hres
        exact ⟨hframeT, hparsed, by rw [hfuncs, boundAfter_eq_getLast]⟩
  · intro hresp htmpl
    cases respPtr with
    | none => exact absurd rfl hresp
    | some rp =>
      cases tmplPtr with
      | none => exact absurd rfl htmpl
      | some tp =>
        obtain ⟨res, hres, _⟩ := GenerateIn_eq h req tp rp extension root σ
        exact ⟨res, hres⟩

/-- Witness of C15 as amended: the generator of the two files; request,
extension and root directory are as before the call, the template object at the
other address is untouched, and the function map of the generator's template
holds the helper context of `b.proto`. -/
theorem Generate_frame_on_store_witness :
    ∃ res,
      (twoFilesAt 0).Generate specHelpers scenarioStore = some res ∧
      res.g.Request = some (requestOf [protoNamed "a.proto", protoNamed "b.proto"]) ∧
      res.g.Extension = ".txt" ∧ res.g.RootDir = "" ∧
      res.store.responses 3 = staleResponse ∧
      (res.store.templates 1).funcs = none ∧
      (res.store.templates 0).funcs =
        some { f := protoNamed "b.proto", ext := ".txt", rootDir := "",
               protoFile := [protoNamed "a.proto", protoNamed "b.proto"] } := by
  have hall := Generate_frame_on_store specHelpers (twoFilesAt 0) scenarioStore
  obtain ⟨res, hres⟩ := hall.2 (by decide) (by decide)
  obtain ⟨hreq, _, _, hext, hroot, _, _, hframeR, _, hT⟩ := hall.1 res hres
  obtain ⟨hframeT, _, hfuncs⟩ := hT 0 rfl
  refine ⟨res, hres, hreq, hext, hroot, ?_, ?_, ?_⟩
  · rw [hframeR 7 rfl 3 (by decide)]
    rfl
  · rw [hframeT 1 (by decide)]
    rfl
  · rw [hfuncs]
    decide

/-- C16, counterexample: a first call returns a pointer through which the two
rendered files are read; after a second call on the same generator, whose
template field has been set to a template that fails, the same pointer reads as
an empty file sequence with an error.  The response obtained from the first
call has changed. -/
theorem Generate_snapshot_counterexample :
    ∃ res1 res2 p,
      (twoFilesAt 0).Generate specHelpers scenarioStore = some res1 ∧
      res1.response = some p ∧
      res1.store.responses p =
        { Error := none,
          File := [{ Name := some "a.txt", InsertionPoint := none, Content := some "a.proto" },
                   { Name := some "b.txt", InsertionPoint := none,
                     Content := some "b.proto" }] } ∧
      (twoFilesAt 1).Generate specHelpers res1.store = some res2 ∧
      res2.store.responses p = { Error := some "a.proto\nb.proto\n", File := [] } ∧
      res2.store.responses p ≠ res1.store.responses p := by
  obtain ⟨res1, res2, h1, h2, hp1, _, hr1, hr2⟩ := scenario_two_calls
  refine ⟨res1, res2, 7, h1, hp1, hr1, h2, hr2, ?_⟩
  rw [hr1, hr2]
  decide

/-- C16, amended: the response returned by `Generate` is not a snapshot but the
response object of the generator.  Every call returns the pointer held in
`g.response`; so a later call on the same generator returns the same pointer as
an earlier one, and after the later call the response obtained from the earlier
call reads as the response the later call computes from its own request,
template, extension and root directory. -/
theorem Generate_returns_own_response (h : Helpers) (g1 g2 : GeneratorRef) (σ1 σ2 : Store)
    (res1 res2 : StoreResult) (hfirst : g1.Generate h σ1 = some res1)
    (hsame : g2.response = g1.response) (hlater : g2.Generate h σ2 = some res2) :
    res1.response = g1.response ∧ res2.response = res1.response ∧
    ∀ p, res1.response = some p → ∀ tp, g2.Template = some tp →
      ∃ vres, Generator.Generate h
          { Request := g2.Request, Template := some (σ2.templates tp).parsed,
            Extension := g2.Extension, RootDir := g2.RootDir,
            response := some (σ2.responses p) } = some vres ∧
        vres.response = some (res2.store.responses p) := by
  obtain ⟨_, hp1, _, _⟩ := GenerateIn_some h g1 σ1 res1 hfirst
  obtain ⟨_, hp2, _, _⟩ := GenerateIn_some h g2 σ2 res2 hlater
  refine ⟨hp1, by rw [hp2, hsame, hp1], ?_⟩
  intro p hp tp htmpl
  obtain ⟨req, tmplPtr, extension, root, respPtr⟩ := g2
  simp only at htmpl hsame
  subst htmpl
  rw [hp1] at hp
  rw [hp] at hsame
  subst hsame
  obtain ⟨res', hres', _, _, _, hresp, _⟩ := GenerateIn_eq h req tp p extension root σ2
  rw [hres'] at hlater
  cases hlater
  exact ⟨_, Generate_eq h req (σ2.templates tp).parsed extension root (σ2.responses p),
    by rw [hresp]⟩

/-- Witness of C16 as amended: the two calls of the counterexample; both return
the pointer `7`, and after the second call it reads as the response of the
failing template. -/
theorem Generate_returns_own_response_witness :
    ∃ res1 res2,
      (twoFilesAt 0).Generate specHelpers scenarioStore = some res1 ∧
      (twoFilesAt 1).Generate specHelpers res1.store = some res2 ∧
      res1.response = some 7 ∧ res2.response = res1.response ∧
      ∃ vres, Generator.Generate specHelpers
          { Request := some (requestOf [protoNamed "a.proto", protoNamed "b.proto"]),
            Template := some (res1.store.templates 1).parsed, Extension := ".txt",
            RootDir := "", response := some (res1.store.responses 7) } = some vres ∧
        vres.response = some (res2.store.responses 7) ∧
        res2.store.responses 7 = { Error := some "a.proto\nb.proto\n", File := [] } := by
  obtain ⟨res1, res2, h1, h2, hp1, _, _, hr2⟩ := scenario_two_calls
  obtain ⟨_, hsame, hread⟩ :=
    Generate_returns_own_response specHelpers (twoFilesAt 0) (twoFilesAt 1) scenarioStore
      res1.store res1 res2 h1 rfl h2
  obtain ⟨vres, hv, hvr⟩ := hread 7 hp1 1 rfl
  exact ⟨res1, res2, h1, h2, hp1, hsame, vres, hv, hvr, hr2⟩

/-- C17: the output name `Generate` derives, with the helpers as the
specification describes them: strip the extension, append the resolved
extension, normalize the separators.  With `.go`, the name `pkg/foo.proto`
gives `pkg/foo.go` and the name `pkg/foo`, which has no extension, gives
`pkg/foo.go`; and in every request whose files all render, the name of the
record of each file is derived in this way and contains no backslash: it is a
forward-slash path. -/
theorem Generate_output_names (req : Option CodeGeneratorRequest) (t : Template)
    (extension root : String) (prior : CodeGeneratorResponse) :
    specHelpers.unixPath (specHelpers.stripExt "pkg/foo.proto" ++ ".go") = "pkg/foo.go" ∧
    specHelpers.unixPath (specHelpers.stripExt "pkg/foo" ++ ".go") = "pkg/foo.go" ∧
    ((∀ f ∈ CodeGeneratorRequest.GetProtoFile req,
        (t.Execute { f := f, ext := resolveExt specHelpers t extension, rootDir := root,
                     protoFile := CodeGeneratorRequest.GetProtoFile req } f).2 = none) →
      ∃ res r, Generator.Generate specHelpers
          { Request := req, Template := some t, Extension := extension, RootDir := root,
            response := some prior } = some res ∧
        res.response = some r ∧
        r.File.map (fun o => o.Name) =
          (CodeGeneratorRequest.GetProtoFile req).map (fun f =>
            some (unixPath (stripExt f.GetName ++ resolveExt specHelpers t extension))) ∧
        ∀ o ∈ r.File, ∃ name, o.Name = some name ∧ '\\' ∉ name.data) := by
  refine ⟨by decide, by decide, ?_⟩
  intro hok
  refine ⟨_, _, Generate_eq specHelpers req t extension root prior, rfl, ?_, ?_⟩
  · simp only [expected_ok_eq specHelpers t root _ _ hok, List.map_map]
    rfl
  · simp only [expected_ok_eq specHelpers t root _ _ hok, List.mem_map]
    rintro o ⟨f, _, rfl⟩
    exact ⟨_, rfl, unixPath_no_backslash _⟩

/-- Witness of C17: the two names of the claim and a name written with
backslashes, with extension `.go`. -/
theorem Generate_output_names_witness :
    ∃ res r, Generator.Generate specHelpers
        { Request := some (requestOf
            [protoNamed "pkg/foo.proto", protoNamed "pkg/foo", protoNamed "pkg\\sub\\bar.proto"]),
          Template := some nameTemplate, Extension := ".go", RootDir := "",
          response := some staleResponse } = some res ∧
      res.response = some r ∧
      r.File.map (fun o => o.Name) =
        [some "pkg/foo.go", some "pkg/foo.go", some "pkg/sub/bar.go"] ∧
      ∀ o ∈ r.File, ∃ name, o.Name = some name ∧ '\\' ∉ name.data :=
  (Generate_output_names
    (some (requestOf
      [protoNamed "pkg/foo.proto", protoNamed "pkg/foo", protoNamed "pkg\\sub\\bar.proto"]))
    nameTemplate ".go" "" staleResponse).2.2 (fun _ _ => rfl)

/-- C18: the one text buffer is emptied before each file.  The records the loop
accumulates, also in a batch where some files fail, hold for each rendered file
the text written for that file alone; in an all-successful request the content
of the `i`-th record of the response is the text rendered for the `i`-th file.
The text a failing rendering wrote before it failed has no part in the
response: a template that differs only in that text gives the same files and
the same error field. -/
theorem Generate_buffer_isolation (h : Helpers) (req : Option CodeGeneratorRequest)
    (t : Template) (extension root : String) (prior : CodeGeneratorResponse) :
    ∃ res r s,
      Generator.Generate h
        { Request := req, Template := some t, Extension := extension, RootDir := root,
          response := some prior } = some res ∧
      res.response = some r ∧
      generateLoop h (some t) root (resolveExt h t extension)
        (CodeGeneratorRequest.GetProtoFile req) (CodeGeneratorRequest.GetProtoFile req)
        { errs := "", buf := "", response := { Error := none, File := [] } } = some s ∧
      s.response.File =
        ((CodeGeneratorRequest.GetProtoFile req).filterMap fun f =>
          match (t.Execute { f := f, ext := resolveExt h t extension, rootDir := root,
                             protoFile := CodeGeneratorRequest.GetProtoFile req } f).2 with
          | some _ => none
          | none => some
              { Name := some (h.unixPath (h.stripExt f.GetName ++ resolveExt h t extension)),
                InsertionPoint := none,
                Content := some
                  (t.Execute { f := f, ext := resolveExt h t extension, rootDir := root,
                               protoFile := CodeGeneratorRequest.GetProtoFile req } f).1 }) ∧
      ((∀ f ∈ CodeGeneratorRequest.GetProtoFile req,
          (t.Execute { f := f, ext := resolveExt h t extension, rootDir := root,
                       protoFile := CodeGeneratorRequest.GetProtoFile req } f).2 = none) →
        ∀ (i : Nat) (f : FileDescriptorProto),
          (CodeGeneratorRequest.GetProtoFile req)[i]? = some f →
          (r.File[i]?).map (fun o => o.Content) = some (some
            (t.Execute { f := f, ext := resolveExt h t extension, rootDir := root,
                         protoFile := CodeGeneratorRequest.GetProtoFile req } f).1)) ∧
      (∀ t' : Template, h.findExt t' = h.findExt t →
        (∀ f ∈ CodeGeneratorRequest.GetProtoFile req,
          (t'.Execute { f := f, ext := resolveExt h t extension, rootDir := root,
                        protoFile := CodeGeneratorRequest.GetProtoFile req } f).2 =
            (t.Execute { f := f, ext := resolveExt h t extension, rootDir := root,
                         protoFile := CodeGeneratorRequest.GetProtoFile req } f).2 ∧
          ((t.Execute { f := f, ext := resolveExt h t extension, rootDir := root,
                        protoFile := CodeGeneratorRequest.GetProtoFile req } f).2 = none →
            (t'.Execute { f := f, ext := resolveExt h t extension, rootDir := root,
                          protoFile := CodeGeneratorRequest.GetProtoFile req } f).1 =
              (t.Execute { f := f, ext := resolveExt h t extension, rootDir := root,
                           protoFile := CodeGeneratorRequest.GetProtoFile req } f).1)) →
        ∃ res', Generator.Generate h
            { Request := req, Template := some t', Extension := extension, RootDir := root,
              response := some prior } = some res' ∧
          res'.response = some r) := by
  obtain ⟨b, hb⟩ := generateLoop_some h t root (resolveExt h t extension)
    (CodeGeneratorRequest.GetProtoFile req) (CodeGeneratorRequest.GetProtoFile req)
    { errs := "", buf := "", response := { Error := none, File := [] } }
  refine ⟨_, _, _, Generate_eq h req t extension root prior, rfl, hb, ?_, ?_, ?_⟩
  · simp only [List.nil_append]
    exact rendered_eq_filterMap h t root _ _ _
  · intro hok i f hi
    simp only [expected_ok_eq h t root _ _ hok, List.getElem?_map, hi, Option.map_some']
  · intro t' hext hsame
    have hres : resolveExt h t' extension = resolveExt h t extension := by
      simp [resolveExt, hext]
    obtain ⟨hfail, hrend⟩ := expected_congr_of_same_results h t t' root _ _ _ hsame
    refine ⟨_, Generate_eq h req t' extension root prior, ?_⟩
    simp only [hres]
    unfold expected
    rw [hfail, hrend]

/-- Witness of C18: `b.proto` comes first and fails after writing `partly`,
`a.proto` renders.  The record the loop holds for `a.proto` has the content
`a.proto` alone, and the response, an error and no file, is the one of the
template that writes nothing before failing. -/
theorem Generate_buffer_isolation_witness :
    ∃ res r s res',
      Generator.Generate specHelpers
        { Request := some (requestOf [protoNamed "b.proto", protoNamed "a.proto"]),
          Template := some (failingTemplate "b.proto" "bad field"), Extension := ".txt",
          RootDir := "", response := some staleResponse } = some res ∧
      res.response = some r ∧
      r = { Error := some "bad field\n", File := [] } ∧
      generateLoop specHelpers (some (failingTemplate "b.proto" "bad field")) "" ".txt"
        [protoNamed "b.proto", protoNamed "a.proto"]
        [protoNamed "b.proto", protoNamed "a.proto"]
        { errs := "", buf := "", response := { Error := none, File := [] } } = some s ∧
      s.response.File =
        [{ Name := some "a.txt", InsertionPoint := none, Content := some "a.proto" }] ∧
      Generator.Generate specHelpers
        { Request := some (requestOf [protoNamed "b.proto", protoNamed "a.proto"]),
          Template := some (failingSilently "b.proto" "bad field"), Extension := ".txt",
          RootDir := "", response := some staleResponse } = some res' ∧
      res'.response = some r := by
  obtain ⟨res, r, s, hres, hr, hloop, hfiles, _, hsame⟩ :=
    Generate_buffer_isolation specHelpers
      (some (requestOf [protoNamed "b.proto", protoNamed "a.proto"]))
      (failingTemplate "b.proto" "bad field") ".txt" "" staleResponse
  obtain ⟨res', hres', hr'⟩ := hsame (failingSilently "b.proto" "bad field") rfl (by
    intro f hf
    have hcases : f = protoNamed "b.proto" ∨ f = protoNamed "a.proto" := by
      simpa [CodeGeneratorRequest.GetProtoFile, requestOf] using hf
    rcases hcases with hEq | hEq <;> subst hEq <;> decide)
  refine ⟨res, r, s, res', hres, hr, ?_, hloop, hfiles, hres', hr'⟩
  have hsome := (Generate_eq specHelpers
    (some (requestOf [protoNamed "b.proto", protoNamed "a.proto"]))
    (failingTemplate "b.proto" "bad field") ".txt" "" staleResponse).symm.trans hres
  cases hsome
  cases hr
  decide

/-- C19: no partial success.  For a request of `n` files, however the files
render, the response returned by `Generate` has either no output record or
exactly `n`, and its error field is set if and only if at least one file failed
to render. -/
theorem Generate_all_or_nothing (h : Helpers) (req : Option CodeGeneratorRequest)
    (t : Template) (extension root : String) (prior : CodeGeneratorResponse) :
    ∃ res r,
      Generator.Generate h
        { Request := req, Template := some t, Extension := extension, RootDir := root,
          response := some prior } = some res ∧
      res.response = some r ∧
      (r.File.length = 0 ∨ r.File.length = (CodeGeneratorRequest.GetProtoFile req).length) ∧
      (r.Error ≠ none ↔
        ∃ f ∈ CodeGeneratorRequest.GetProtoFile req,
          (t.Execute { f := f, ext := resolveExt h t extension, rootDir := root,
                       protoFile := CodeGeneratorRequest.GetProtoFile req } f).2 ≠ none) := by
  refine ⟨_, _, Generate_eq h req t extension root prior, rfl, ?_⟩
  by_cases hfail : ∃ f ∈ CodeGeneratorRequest.GetProtoFile req,
      (t.Execute { f := f, ext := resolveExt h t extension, rootDir := root,
                   protoFile := CodeGeneratorRequest.GetProtoFile req } f).2 ≠ none
  · obtain ⟨f, hf, hne⟩ := hfail
    rw [expected_fail_eq h t root _ _ f hf hne]
    exact ⟨Or.inl rfl, fun _ => ⟨f, hf, hne⟩, fun _ => by simp⟩
  · have hok : ∀ f ∈ CodeGeneratorRequest.GetProtoFile req,
        (t.Execute { f := f, ext := resolveExt h t extension, rootDir := root,
                     protoFile := CodeGeneratorRequest.GetProtoFile req } f).2 = none := by
      intro f hf
      by_contra hne
      exact hfail ⟨f, hf, hne⟩
    rw [expected_ok_eq h t root _ _ hok]
    refine ⟨Or.inr (by simp), fun hne => absurd rfl hne, fun hex => absurd hex hfail⟩

end tmpl
